import Mathlib

/-!
Shallow embedding of the rusty_graph property-graph engine.

The repository carries two generations of the engine:
* the pyo3/petgraph API (`src/graph/add_nodes.rs`, `src/graph/get_schema.rs`,
  `src/graph/query_functions.rs`, `src/data_types.rs`), embedded below with
  the `Old` prefix-free names (`AttributeValue`, `OldGraph`, ...);
* the newer `DirGraph` API (`src/graph/maintain_graph.rs`,
  `src/graph/calculations.rs`), whose support modules (`graph/schema.rs`,
  `graph/lookups.rs`, `graph/batch_operations.rs`, `datatypes.rs`,
  `graph/equation_parser.rs`, `graph/statistics_methods.rs`) are not part of
  the sources; those are modelled from the specification and marked as such.

Rust `f64` payloads are embedded as `Rat` (the claims under study never
exercise NaN or rounding behaviour); `i32`/`i64` are embedded as `Int`
(no claim exercises wrap-around).  A Rust function that can `panic!` is
embedded with an explicit `panicked` result constructor, so that a panic is
distinguishable from a returned `Err` value.
-/

deriving instance DecidableEq for Except

namespace RG

/-- Result of a Rust call that may panic (`panic!` / `.expect`): either a
normal value or a propagated panic carrying the panic message. -/
inductive RRes (α : Type) where
  | ok : α → RRes α
  | panicked : String → RRes α
deriving Repr, DecidableEq

/-- Result of a `PyResult`-returning entry point, threaded together with the
graph it may have mutated: `ok` (Rust `Ok`), `err` (a returned `PyErr` /
`Err(String)`), or `panicked`. -/
inductive CallRes (α : Type) where
  | ok : α → CallRes α
  | err : String → CallRes α
  | panicked : String → CallRes α
deriving Repr, DecidableEq

/-- `data_types.rs`: `enum AttributeValue` - `Int(i32)`, `Float(f64)`,
`DateTime(i64)`, `String(String)`.  `f64` is embedded as `Rat`. -/
inductive AttributeValue where
  | int : Int → AttributeValue
  | float : Rat → AttributeValue
  | dateTime : Int → AttributeValue
  | str : String → AttributeValue
deriving Repr, DecidableEq

/-- `AttributeValue::to_string` (`data_types.rs`). -/
def AttributeValue.toText : AttributeValue → String
  | .int v => toString v
  | .float v => toString v
  | .dateTime v => toString v
  | .str v => v

/-- `impl PartialOrd for AttributeValue` (`data_types.rs`): ordering is
defined only within one variant; cross-variant comparison is `None`. -/
def AttributeValue.partialCmp : AttributeValue → AttributeValue → Option Ordering
  | .int a, .int b => some (compare a b)
  | .float a, .float b => some (compare a b)
  | .dateTime a, .dateTime b => some (compare a b)
  | .str a, .str b => some (compare a b)
  | _, _ => none

/-- `schema.rs` (missing from the sources; modelled from the spec, section 3):
a node is either a regular node - `StandardNode` with type name, unique id,
optional title and a property mapping - or a schema node - `DataTypeNode`
with a data-type kind (`"Node"` or `"Relation"`), a type name, a declared
attribute-type mapping and an optional calculation-type mapping.  Property
maps are association lists keyed by property name. -/
inductive Node where
  | standard (node_type : String) (unique_id : Int)
      (title : Option String) (attributes : List (String × AttributeValue)) : Node
  | dataType (data_type : String) (name : String)
      (attributes : List (String × String))
      (calculations : Option (List (String × String))) : Node
deriving Repr, DecidableEq

/-- Association-list lookup (embeds `HashMap::get`). -/
def alGet {β : Type} (m : List (String × β)) (k : String) : Option β :=
  (m.find? (fun p => p.1 == k)).map Prod.snd

/-- Association-list insert, overwriting an existing binding (embeds
`HashMap::insert`). -/
def alInsert {β : Type} (m : List (String × β)) (k : String) (v : β) :
    List (String × β) :=
  match m with
  | [] => [(k, v)]
  | p :: rest => if p.1 == k then (k, v) :: rest else p :: alInsert rest k v

/-- `HashMap::extend`: insert every binding of `n` into `m`, `n` winning on
key collision (embeds `updated_attrs.extend(new_types)`). -/
def alExtend {β : Type} (m n : List (String × β)) : List (String × β) :=
  n.foldl (fun acc p => alInsert acc p.1 p.2) m

/-- `schema.rs` `Relation` (modelled from the spec, section 3): a relation
carries a type tag and a property mapping. -/
structure Relation where
  relation_type : String
  attributes : List (String × AttributeValue)
deriving Repr, DecidableEq

/-- One directed edge of the petgraph `DiGraph`: source and target node
indices plus the edge weight. -/
structure Edge where
  source : Nat
  target : Nat
  weight : Relation
deriving Repr, DecidableEq

/-- The petgraph `DiGraph<Node, Relation>`: nodes indexed by list position
(petgraph node indices are dense and insertion-ordered; no node is ever
removed by this code base), with an edge list. -/
structure OldGraph where
  nodes : List Node
  edges : List Edge
deriving Repr, DecidableEq

/-- `graph.add_node`: append, returning the fresh index. -/
def OldGraph.addNode (g : OldGraph) (n : Node) : OldGraph × Nat :=
  ({ g with nodes := g.nodes ++ [n] }, g.nodes.length)

/-- `graph.node_weight(idx)` / `&graph[idx]` as a total lookup. -/
def OldGraph.nodeAt (g : OldGraph) (idx : Nat) : Option Node :=
  g.nodes.get? idx

/-- `graph[idx] = n`: replace the node stored at an index. -/
def OldGraph.setNode (g : OldGraph) (idx : Nat) (n : Node) : OldGraph :=
  { g with nodes := g.nodes.set idx n }

/-- `graph.node_indices().find(...)` searching for a `StandardNode` with the
given type name and unique id (`add_nodes.rs`, `update_or_create_node`). -/
def findStandardNode (g : OldGraph) (node_type : String) (unique_id : Int) :
    Option Nat :=
  (List.range g.nodes.length).find? (fun i =>
    match g.nodeAt i with
    | some (.standard nt uid _ _) => nt == node_type && uid == unique_id
    | _ => false)

/-- `Node::new` (modelled from the spec, section 3: missing `schema.rs`):
build a regular node from type, id, optional attributes and optional title. -/
def Node.newStandard (node_type : String) (unique_id : Int)
    (attributes : Option (List (String × AttributeValue)))
    (title : Option String) : Node :=
  .standard node_type unique_id title (attributes.getD [])

/-- `Node::new_data_type` (modelled from the spec, section 3: missing
`schema.rs`): build a schema node. -/
def Node.newDataType (data_type name : String)
    (attributes : List (String × String))
    (calculations : Option (List (String × String))) : Node :=
  .dataType data_type name attributes calculations

/-- `add_nodes.rs` lines 28-74, `update_or_create_node`: conflict resolution
keyed on `(node_type, unique_id)`.  `replace` installs a fresh node,
`update` merges the row's attributes (row wins), `skip` leaves the node
untouched, any other policy string hits `panic!("Invalid conflict_handling
value")`; with no existing match a node is always created. -/
def updateOrCreateNode (g : OldGraph) (node_type : String) (unique_id : Int)
    (node_title : Option String)
    (attributes : Option (List (String × AttributeValue)))
    (conflict_handling : String) : RRes (OldGraph × Nat) :=
  match findStandardNode g node_type unique_id with
  | some node_index =>
    if conflict_handling == "replace" then
      .ok (g.setNode node_index
        (Node.newStandard node_type unique_id attributes node_title), node_index)
    else if conflict_handling == "update" then
      match attributes with
      | some attrs =>
        match g.nodeAt node_index with
        | some (.standard nt uid t node_attrs) =>
          .ok (g.setNode node_index
            (.standard nt uid t (alExtend node_attrs attrs)), node_index)
        | _ => .ok (g, node_index)
      | none => .ok (g, node_index)
    else if conflict_handling == "skip" then
      .ok (g, node_index)
    else
      .panicked "Invalid conflict_handling value"
  | none =>
    let (g1, idx) := g.addNode
      (Node.newStandard node_type unique_id attributes node_title)
    .ok (g1, idx)

/-- `graph.node_indices().find(...)` for a `DataTypeNode` with the given
data-type kind and name (`get_schema.rs`, `update_or_retrieve_schema`). -/
def findDataTypeNode (g : OldGraph) (data_type name : String) : Option Nat :=
  (List.range g.nodes.length).find? (fun i =>
    match g.nodeAt i with
    | some (.dataType dt nt _ _) => dt == data_type && nt == name
    | _ => false)

/-- `get_schema.rs` lines 9-52, `update_or_retrieve_schema`: if a schema node
for `(data_type, name)` exists and types are supplied, merge them into the
current attribute map (`extend`, new types win) and replace the whole node
in one assignment; with no types, return the current map; with no schema
node, create one holding exactly the supplied types (or an empty map). -/
def updateOrRetrieveSchema (g : OldGraph) (data_type name : String)
    (types : Option (List (String × String))) :
    CallRes (List (String × String)) × OldGraph :=
  match findDataTypeNode g data_type name with
  | some idx =>
    match types with
    | some new_types =>
      let curr := match g.nodeAt idx with
        | some (.dataType _ _ attributes calculations) => (attributes, calculations)
        | _ => ([], none)
      let updated_attrs := alExtend curr.1 new_types
      (.ok updated_attrs,
        g.setNode idx (Node.newDataType data_type name updated_attrs curr.2))
    | none =>
      match g.nodeAt idx with
      | some (.dataType _ _ attributes _) => (.ok attributes, g)
      | _ => (.ok [], g)
  | none =>
    let attributes := types.getD []
    ((.ok attributes), (g.addNode (Node.newDataType data_type name attributes none)).1)

/-- Decimal digits to a natural number. -/
def digitsToNat (cs : List Char) : Nat :=
  cs.foldl (fun n c => n * 10 + (c.toNat - 48)) 0

/-! Kernel-computable string helpers, standing in for the Rust string
library calls (`to_lowercase`, `trim`, `split`, `starts_with`, `contains`,
`parse`): implemented over the character list so that concrete runs reduce
inside the kernel. -/

/-- `to_lowercase` (ASCII, which is all the engine compares). -/
def strLower (s : String) : String := String.mk (s.data.map Char.toLower)

/-- `str::trim`. -/
def trimStr (s : String) : String :=
  String.mk (((s.data.dropWhile Char.isWhitespace).reverse.dropWhile
    Char.isWhitespace).reverse)

/-- `str::contains(char)`. -/
def containsChar (s : String) (c : Char) : Bool := s.data.contains c

/-- `str::split(sep)`, auxiliary over the character list. -/
def splitOnCharAux (sep : Char) : List Char → List Char → List String
  | [], acc => [String.mk acc.reverse]
  | c :: cs, acc =>
    if c == sep then String.mk acc.reverse :: splitOnCharAux sep cs []
    else splitOnCharAux sep cs (c :: acc)

/-- `str::split(sep)` for a one-character separator. -/
def splitOnChar (s : String) (sep : Char) : List String :=
  splitOnCharAux sep s.data []

/-- `str::starts_with`. -/
def startsWithStr (s pre : String) : Bool := pre.data.isPrefixOf s.data

/-- Digit run to a natural number, `none` when empty or non-digit. -/
def charsToNat? (cs : List Char) : Option Nat :=
  if cs.isEmpty = false && cs.all Char.isDigit then some (digitsToNat cs)
  else none

/-- `parse::<u64>`-style digits-only parse. -/
def strToNat? (s : String) : Option Nat := charsToNat? s.data

/-- Signed decimal parse (optional leading minus). -/
def strToInt? (s : String) : Option Int :=
  match s.data with
  | '-' :: rest => (charsToNat? rest).map (fun n => -(n : Int))
  | cs => (charsToNat? cs).map (fun n => (n : Int))

/-! ### Old-API node ingestion (`add_nodes.rs`) -/

/-- A Python cell value handed through pyo3 (`&PyAny`): integers, floats,
strings, or anything else (`none` embeds `None` and any non-extractable
object). -/
inductive PyValue where
  | pyInt : Int → PyValue
  | pyFloat : Rat → PyValue
  | pyStr : String → PyValue
  | pyNone : PyValue
deriving Repr, DecidableEq

/-- `item.extract::<i64>()`: succeeds only on a Python int. -/
def extractI64 : PyValue → Option Int
  | .pyInt n => some n
  | _ => none

/-- `item.extract::<f64>()`: succeeds on a Python float, and on an int by
promotion. -/
def extractF64 : PyValue → Option Rat
  | .pyFloat q => some q
  | .pyInt n => some (n : Rat)
  | _ => none

/-- `item.extract::<i32>()`: succeeds on a Python int that fits in 32 bits. -/
def extractI32 : PyValue → Option Int
  | .pyInt n => if -(2 ^ 31) ≤ n ∧ n < 2 ^ 31 then some n else none
  | _ => none

/-- `item.extract::<String>()`: succeeds only on a Python str. -/
def extractStr : PyValue → Option String
  | .pyStr s => some s
  | _ => none

/-- Rust `as i32` on an `i64` value: two's-complement wrap. -/
def i32wrap (n : Int) : Int := ((n + 2 ^ 31) % 2 ^ 32) - 2 ^ 31

/-- Rust `as i32` on an `f64` value: truncate toward zero, saturating. -/
def f64asI32 (q : Rat) : Int :=
  let t : Int := if q ≥ 0 then q.floor else q.ceil
  max (-(2 ^ 31)) (min (2 ^ 31 - 1) t)

/-- `s.parse::<i32>()`: decimal parse with bounds check (embedded via
`String.toInt?`). -/
def parseI32String (s : String) : Option Int :=
  match strToInt? s with
  | some n => if -(2 ^ 31) ≤ n ∧ n < 2 ^ 31 then some n else none
  | none => none

/-- `add_nodes.rs` lines 10-26, `parse_value_to_i32`: try i64, then f64,
then i32, then a string parse. -/
def parseValueToI32 (item : PyValue) : Option Int :=
  match extractI64 item with
  | some n => some (i32wrap n)
  | none =>
    match extractF64 item with
    | some q => some (f64asI32 q)
    | none =>
      match extractI32 item with
      | some n => some n
      | none =>
        match extractStr item with
        | some s => parseI32String s
        | none => none

/-- A row of the input `PyList`: `some cells` when
`row.extract::<Vec<&PyAny>>()` succeeds, `none` when the row is not a
sequence (such a row is skipped by the loop). -/
def PyRow : Type := Option (List PyValue)

/-- `columns.join(", ")`. -/
def joinComma (xs : List String) : String := String.intercalate ", " xs

/-- `splitn(2, ' ')`: split at the first space only. -/
def splitn2Space (s : String) : String × Option String :=
  match splitOnChar s ' ' with
  | [] => (s, none)
  | [x] => (x, none)
  | x :: rest => (x, some (String.intercalate " " rest))

/-- `add_nodes.rs` lines 290-309, `extract_datetime_formats`: collect the
per-column format suffix of every `DateTime`-prefixed declared type
(default format when no suffix), and strip the declared types back to the
bare `DateTime`.  Returns (formats, stripped type map). -/
def extractDatetimeFormats (column_types_map : List (String × String))
    (default_datetime_format : String) :
    List (String × String) × List (String × String) :=
  let datetime_formats := column_types_map.foldl (fun acc p =>
    let parts := splitn2Space p.2
    if parts.1 == "DateTime" then
      alInsert acc p.1 (parts.2.getD default_datetime_format)
    else acc) []
  let stripped := column_types_map.map (fun p =>
    if startsWithStr p.2 "DateTime" then (p.1, "DateTime") else p)
  (datetime_formats, stripped)

/-- `add_nodes.rs` lines 144-159: with no explicit column types, infer a
type per column from the first row: `Int` when the cell extracts as an
integer, else `Float` when it extracts as a float, else `String`. -/
def inferTypes (data : List PyRow) (columns : List String) :
    List (String × String) :=
  match data.head? with
  | some (some first_row) =>
    (columns.enum.foldl (fun acc p =>
      match first_row.get? p.1 with
      | some item =>
        let type_str :=
          if (extractI64 item).isSome || (extractI32 item).isSome then "Int"
          else if (extractF64 item).isSome then "Float"
          else "String"
        alInsert acc p.2 type_str
      | none => acc) [])
  | _ => []

/-- `add_nodes.rs` lines 226-263: coerce one cell according to the schema's
declared type for the column.  `chronoParse` stands for the external
`chrono::NaiveDateTime::parse_from_str` collaborator (text, format →
seconds since epoch). -/
def coerceCell (chronoParse : String → String → Option Int)
    (data_type : String) (format : String) (item : PyValue) :
    Option AttributeValue :=
  if data_type == "Int" then
    match extractI64 item with
    | some v => some (.int (i32wrap v))
    | none =>
      match extractI32 item with
      | some v => some (.int v)
      | none =>
        match extractF64 item with
        | some v => some (.int (f64asI32 v))
        | none => none
  else if data_type == "Float" then
    match extractF64 item with
    | some v => some (.float v)
    | none =>
      match extractI64 item with
      | some v => some (.float (v : Rat))
      | none => none
  else if data_type == "DateTime" then
    match extractI64 item with
    | some ts => some (.dateTime ts)
    | none =>
      match extractStr item with
      | some s => (chronoParse s format).map .dateTime
      | none => none
  else
    some (.str ((extractStr item).getD ""))

/-- State of the per-row column scan (`add_nodes.rs` lines 186-268):
accumulated attributes, the parsed unique id and the extracted title.
`none` overall means `continue 'row_loop` fired (missing cell or
unparseable unique id). -/
def scanCells (chronoParse : String → String → Option Int)
    (schema datetime_formats : List (String × String))
    (default_datetime_format unique_id_field : String)
    (node_title_field : Option String) (attribute_columns : Option (List String))
    (row : List PyValue) :
    List (Nat × String) →
    List (String × AttributeValue) → Option Int → Option String →
    Option (List (String × AttributeValue) × Option Int × Option String)
  | [], attrs, uid, title => some (attrs, uid, title)
  | (col_index, column_name) :: cols, attrs, uid, title =>
    match row.get? col_index with
    | none => none
    | some item =>
      if column_name == unique_id_field then
        match parseValueToI32 item with
        | none => none
        | some v =>
          scanCells chronoParse schema datetime_formats default_datetime_format
            unique_id_field node_title_field attribute_columns row cols
            attrs (some v) title
      else if node_title_field.any (fun tf => column_name == tf) then
        scanCells chronoParse schema datetime_formats default_datetime_format
          unique_id_field node_title_field attribute_columns row cols
          attrs uid (extractStr item)
      else if (attribute_columns.all (fun acs =>
          acs.any (fun c => strLower c == strLower column_name))) = false then
        scanCells chronoParse schema datetime_formats default_datetime_format
          unique_id_field node_title_field attribute_columns row cols
          attrs uid title
      else
        let data_type := (alGet schema column_name).getD "String"
        let format := (alGet datetime_formats column_name).getD
          default_datetime_format
        let attrs1 := match coerceCell chronoParse data_type format item with
          | some value => alInsert attrs column_name value
          | none => attrs
        scanCells chronoParse schema datetime_formats default_datetime_format
          unique_id_field node_title_field attribute_columns row cols
          attrs1 uid title

/-- One iteration of the row loop (`add_nodes.rs` lines 179-285): extract
the row, scan its cells, and feed the result to `update_or_create_node`.
Returns the graph unchanged when the row is skipped. -/
def processRowOld (chronoParse : String → String → Option Int)
    (schema datetime_formats : List (String × String))
    (default_datetime_format : String) (columns : List String)
    (node_type unique_id_field : String) (node_title_field : Option String)
    (attribute_columns : Option (List String)) (conflict_handling : String)
    (g : OldGraph) (r : PyRow) : RRes OldGraph :=
  match r with
  | none => .ok g
  | some row =>
    match scanCells chronoParse schema datetime_formats
        default_datetime_format unique_id_field node_title_field
        attribute_columns row columns.enum [] none none with
    | none => .ok g
    | some (attributes, uid, node_title) =>
      match uid with
      | none => .ok g
      | some unique_id =>
        match updateOrCreateNode g node_type unique_id node_title
            (some attributes) conflict_handling with
        | .ok (g1, _) => .ok g1
        | .panicked m => .panicked m

/-- The row loop itself: process rows in order, propagating a panic. -/
def processRowsOld (chronoParse : String → String → Option Int)
    (schema datetime_formats : List (String × String))
    (default_datetime_format : String) (columns : List String)
    (node_type unique_id_field : String) (node_title_field : Option String)
    (attribute_columns : Option (List String)) (conflict_handling : String)
    (g : OldGraph) : List PyRow → RRes OldGraph
  | [] => .ok g
  | r :: rs =>
    match processRowOld chronoParse schema datetime_formats
        default_datetime_format columns node_type unique_id_field
        node_title_field attribute_columns conflict_handling g r with
    | .ok g1 =>
      processRowsOld chronoParse schema datetime_formats
        default_datetime_format columns node_type unique_id_field
        node_title_field attribute_columns conflict_handling g1 rs
    | .panicked m => .panicked m

/-- `add_nodes.rs` lines 76-288, `add_nodes`: validate the requested columns
case-insensitively (unique-id field, then title field, then attribute
columns), infer or take the column types, register the schema, then run
the row loop.  The returned graph is the caller's `&mut` graph after the
call: validation errors return it untouched. -/
def addNodesOld (chronoParse : String → String → Option Int) (g : OldGraph)
    (data : List PyRow) (columns : List String)
    (node_type unique_id_field : String) (node_title_field : Option String)
    (conflict_handling : Option String)
    (column_types : Option (List (String × String)))
    (attribute_columns : Option (List String)) : CallRes Unit × OldGraph :=
  let conflict_handling := conflict_handling.getD "update"
  let default_datetime_format := "%Y-%m-%d %H:%M:%S"
  let available_columns := columns.map strLower
  if (available_columns.contains (strLower unique_id_field)) = false then
    (.err ("Unique ID column \x27" ++ unique_id_field ++
      "\x27 not found in data. Valid columns are: [" ++ joinComma columns ++ "]"), g)
  else if (node_title_field.all (fun tf =>
      available_columns.contains (strLower tf))) = false then
    (.err ("Title column \x27" ++ (node_title_field.getD "") ++
      "\x27 not found in data. Valid columns are: [" ++ joinComma columns ++ "]"), g)
  else
    let invalid_cols := (attribute_columns.getD []).filter (fun c =>
      (available_columns.contains (strLower c)) = false)
    if invalid_cols.isEmpty = false then
      (.err (joinComma invalid_cols ++
        " not found in data. Valid columns are: [" ++ joinComma columns ++ "]"), g)
    else
      let column_types_map := match column_types with
        | some ct => ct
        | none => inferTypes data columns
      let fmts := if column_types_map.isEmpty = false then
          extractDatetimeFormats column_types_map default_datetime_format
        else ([], column_types_map)
      let datetime_formats := fmts.1
      let column_types_map := fmts.2
      let sres := updateOrRetrieveSchema g "Node" node_type (some column_types_map)
      match sres.1 with
      | .ok schema =>
        match processRowsOld chronoParse schema datetime_formats
            default_datetime_format columns node_type unique_id_field
            node_title_field attribute_columns conflict_handling sres.2 data with
        | .ok g1 => (.ok (), g1)
        | .panicked m => (.panicked m, sres.2)
      | .err m => (.err m, sres.2)
      | .panicked m => (.panicked m, sres.2)

/-! ### Old-API query layer (`query_functions.rs`) -/

/-- One predicate key applied to a regular node (`query_functions.rs` lines
32-43): reserved keys compare against metadata, any other key against the
attribute map, per stored variant. -/
def matchesFilter (node_type : String) (unique_id : Int) (title : Option String)
    (attributes : List (String × AttributeValue)) (key value : String) : Bool :=
  if key == "type" || key == "node_type" then node_type == value
  else if key == "title" then (title.map (fun t => t == value)).getD false
  else if key == "unique_id" then toString unique_id == value
  else
    match alGet attributes key with
    | some (.str s) => s == value
    | some (.int i) => toString i == value
    | some (.float f) => toString f == value
    | some (.dateTime dt) => toString dt == value
    | none => false

/-- `query_functions.rs` lines 10-58, `filter_nodes`: candidate indices
default to all node indices; a candidate is kept iff it holds a
`StandardNode` and every predicate matches. -/
def filterNodes (g : OldGraph) (indices : Option (List Nat))
    (filters : List (String × String)) : List Nat :=
  let nodes_to_check := match indices with
    | some idx => idx
    | none => List.range g.nodes.length
  nodes_to_check.filter (fun idx =>
    match g.nodeAt idx with
    | some (.standard node_type unique_id title attributes) =>
      filters.all (fun p =>
        matchesFilter node_type unique_id title attributes p.1 p.2)
    | _ => false)

/-- `edges_directed(node, direction)`: the edges incident to a node on the
requested side.  (petgraph iterates adjacency lists in reverse insertion
order; the claims under study are insensitive to the iteration order, so
the edge-list order is used.) -/
def edgesDirected (g : OldGraph) (node : Nat) (incoming : Bool) : List Edge :=
  g.edges.filter (fun e => if incoming then e.target == node else e.source == node)

/-- `query_functions.rs` lines 69-86: collect, for each input node, the
opposite endpoint of every matching edge, paired with the endpoint's sort
key (its value under the sort attribute, `None` when the attribute or the
sort request is absent or the endpoint is not a regular node). -/
def collectConnected (g : OldGraph) (indices : List Nat)
    (relationship_type : String) (incoming : Bool)
    (sort_attribute : Option String) : List (Nat × Option AttributeValue) :=
  indices.foldl (fun acc idx =>
    acc ++ (edgesDirected g idx incoming).filterMap (fun e =>
      if e.weight.relation_type == relationship_type then
        let connected_idx := if incoming then e.source else e.target
        match sort_attribute, g.nodeAt connected_idx with
        | some attr, some (.standard _ _ _ attributes) =>
          some (connected_idx, alGet attributes attr)
        | _, _ => some (connected_idx, none)
      else none)) []

/-- The comparator passed to `sort_by` (`query_functions.rs` lines 89-94):
both keys present compare by `partial_cmp` with cross-variant treated as
`Equal`; a present key sorts before a missing one. -/
def cmpOptVal : Option AttributeValue → Option AttributeValue → Ordering
  | some a, some b => (a.partialCmp b).getD .eq
  | some _, none => .lt
  | none, some _ => .gt
  | none, none => .eq

/-- Stable insertion: `a` is placed before the first element `b` with
`le a b` (so an element inserted from further left stays left of equals). -/
def stableInsert {α : Type} (le : α → α → Bool) (a : α) : List α → List α
  | [] => [a]
  | b :: l => if le a b then a :: b :: l else b :: stableInsert le a l

/-- Stable sort; extensionally equal to Rust's stable `sort_by` whenever the
comparator is a total preorder (which is the only case the claims rely on). -/
def stableSort {α : Type} (le : α → α → Bool) : List α → List α
  | [] => []
  | a :: l => stableInsert le a (stableSort le l)

/-- The Boolean form of the sort comparator: `a` may precede `b`. -/
def leKey (a b : Nat × Option AttributeValue) : Bool :=
  cmpOptVal a.2 b.2 != Ordering.gt

/-- `.take(max_relations.unwrap_or(usize::MAX))`: `usize::MAX` exceeds any
realizable collection, so no limit means no truncation. -/
def applyLimit {α : Type} : Option Nat → List α → List α
  | none, l => l
  | some k, l => l.take k

/-- `query_functions.rs` lines 60-107, `traverse_relationships`: collect the
matching endpoints, stably sort by the sort key when a sort attribute is
given, reverse when `ascending` is false, and truncate to the limit. -/
def traverseRelationships (g : OldGraph) (indices : List Nat)
    (relationship_type : String) (incoming : Bool)
    (sort_attribute : Option String) (ascending : Option Bool)
    (max_relations : Option Nat) : List Nat :=
  let connected_nodes := collectConnected g indices relationship_type incoming
    sort_attribute
  let connected_nodes := match sort_attribute with
    | some _ =>
      let s := stableSort leKey connected_nodes
      if (ascending.getD true) = false then s.reverse else s
    | none => connected_nodes
  applyLimit max_relations (connected_nodes.map Prod.fst)

/-! ### New-API data model (`maintain_graph.rs` and its collaborators) -/

/-- Kernel-computable fraction pairs, the numeric carrier of the modelled
expression engine (`f64` stands in as exact fractions; representations are
not normalized - no claim compares float results for equality across
distinct representations). -/
structure Q where
  num : Int
  den : Nat
deriving Repr, DecidableEq

/-- Embed an integer. -/
def qOfInt (n : Int) : Q := ⟨n, 1⟩

/-- Embed a natural number. -/
def qOfNat (n : Nat) : Q := ⟨(n : Int), 1⟩

/-- Fraction addition (no normalization). -/
def qAdd (a b : Q) : Q := ⟨a.num * (b.den : Int) + b.num * (a.den : Int), a.den * b.den⟩

/-- Fraction subtraction. -/
def qSub (a b : Q) : Q := ⟨a.num * (b.den : Int) - b.num * (a.den : Int), a.den * b.den⟩

/-- Fraction multiplication. -/
def qMul (a b : Q) : Q := ⟨a.num * b.num, a.den * b.den⟩

/-- Fraction division (division by a zero numerator yields the denominator
zero marker, the model's stand-in for the float infinities). -/
def qDiv (a b : Q) : Q :=
  if b.num < 0 then ⟨-(a.num * (b.den : Int)), a.den * b.num.natAbs⟩
  else ⟨a.num * (b.den : Int), a.den * b.num.natAbs⟩

/-- Fraction comparison by cross multiplication. -/
def qLe (a b : Q) : Bool := decide (a.num * (b.den : Int) ≤ b.num * (a.den : Int))

/-- Integer-precision square root of a fraction (exact only on perfect
squares; no claim evaluates standard deviation). -/
def qSqrt (a : Q) : Q := ⟨(Nat.sqrt a.num.natAbs : Int), Nat.sqrt a.den⟩

/-- `datatypes.rs` `Value` (missing from the sources; modelled from the
spec, section 3: integer, floating point, text, null, unique-id marker;
`f64` embedded as the fraction type `Q`). -/
inductive Value where
  | int64 : Int → Value
  | float64 : Q → Value
  | uniqueIdV : Int → Value
  | str : String → Value
  | null : Value
deriving Repr, DecidableEq

/-- `Value::as_string` (modelled from the spec: titles are text values). -/
def Value.asStringV : Value → Option String
  | .str s => some s
  | _ => none

/-- `graph/schema.rs` `NodeData` (missing from the sources; modelled from
the spec, section 3, and the pattern matches in `maintain_graph.rs` /
`calculations.rs`): a `Regular` or `Schema` node, each with id, title,
type name and a property mapping. -/
inductive NodeData where
  | regular (id : Value) (title : Value) (node_type : String)
      (properties : List (String × Value)) : NodeData
  | schemaN (id : Value) (title : Value) (node_type : String)
      (properties : List (String × Value)) : NodeData
deriving Repr, DecidableEq

/-- The node's type-name field, shared by both variants. -/
def NodeData.nodeType : NodeData → String
  | .regular _ _ nt _ => nt
  | .schemaN _ _ nt _ => nt

/-- The node's identity value. -/
def NodeData.idVal : NodeData → Value
  | .regular i _ _ _ => i
  | .schemaN i _ _ _ => i

/-- The node's title value. -/
def NodeData.titleVal : NodeData → Value
  | .regular _ t _ _ => t
  | .schemaN _ t _ _ => t

/-- The node's property mapping. -/
def NodeData.props : NodeData → List (String × Value)
  | .regular _ _ _ p => p
  | .schemaN _ _ _ p => p

/-- `NodeData::get_field` (modelled from the spec / call sites: reserved
field names resolve to metadata, anything else to the property map). -/
def NodeData.getField (n : NodeData) (f : String) : Option Value :=
  if f == "title" then some n.titleVal
  else if f == "id" then some n.idVal
  else if f == "type" || f == "node_type" then some (.str n.nodeType)
  else alGet n.props f

/-- `graph/schema.rs` `DirGraph` (missing from the sources; modelled from
the spec, section 2): nodes indexed by dense insertion position.  Edges
are not needed by the claims under study. -/
structure DirGraph where
  nodes : List NodeData
deriving Repr, DecidableEq

/-- `graph.get_node(idx)`. -/
def DirGraph.getNode (g : DirGraph) (idx : Nat) : Option NodeData :=
  g.nodes.get? idx

/-- In-place node replacement (the effect of `get_node_mut`). -/
def DirGraph.setNode (g : DirGraph) (idx : Nat) (n : NodeData) : DirGraph :=
  ⟨g.nodes.set idx n⟩

/-- `graph.graph.add_node`. -/
def DirGraph.addNode (g : DirGraph) (n : NodeData) : DirGraph :=
  ⟨g.nodes ++ [n]⟩

/-- `lookups.rs` `TypeLookup::check_uid` (missing from the sources; modelled
from the spec, section 4.2): resolve a unique id to the first node of the
lookup's type carrying that id.  `TypeLookup::new` itself always succeeds
(the ingestion code builds lookups for types that may not exist yet). -/
def lookupCheckUid (g : DirGraph) (node_type : String) (id : Value) :
    Option Nat :=
  (List.range g.nodes.length).find? (fun i =>
    match g.getNode i with
    | some n => n.nodeType == node_type && n.idVal == id
    | none => false)

/-- `lookups.rs` `TypeLookup::check_title` (missing from the sources;
modelled from the spec, section 4.2): resolve a title to the first node of
the lookup's type carrying that title. -/
def lookupCheckTitle (g : DirGraph) (node_type : String) (title : Value) :
    Option Nat :=
  (List.range g.nodes.length).find? (fun i =>
    match g.getNode i with
    | some n => n.nodeType == node_type && n.titleVal == title
    | none => false)

/-- `datatypes.rs` `DataFrame` (missing from the sources; modelled from the
spec, section 6: an ordered column list, per-column declared types, and
rows of cells). -/
structure DataFrame where
  columns : List String
  colTypes : List String
  rows : List (List Value)
deriving Repr, DecidableEq

/-- `df.get_column_index` (modelled from the spec, section 4.3: column
matching is case-insensitive). -/
def DataFrame.getColumnIndex (df : DataFrame) (name : String) : Option Nat :=
  (df.columns.enum.find? (fun p => strLower p.2 == strLower name)).map Prod.fst

/-- `df.verify_column`. -/
def DataFrame.verifyColumn (df : DataFrame) (name : String) : Bool :=
  (df.getColumnIndex name).isSome

/-- `df.get_column_type` (modelled from the spec: the declared/inferred type
string of a column). -/
def DataFrame.getColumnType (df : DataFrame) (name : String) : String :=
  match df.getColumnIndex name with
  | some i => df.colTypes.getD i "Unknown"
  | none => "Unknown"

/-- `df.get_value_by_index(row, col)`: `None` past the bounds, otherwise the
stored cell (which may itself be `Value::Null`). -/
def DataFrame.getValueByIndex (df : DataFrame) (row col : Nat) : Option Value :=
  (df.rows.get? row).bind (fun r => r.get? col)

/-- `df.get_value(row, name)`. -/
def DataFrame.getValue (df : DataFrame) (row : Nat) (name : String) :
    Option Value :=
  (df.getColumnIndex name).bind (fun c => df.getValueByIndex row c)

/-- `maintain_graph.rs` lines 9-15, `check_data_validity`. -/
def checkDataValidity (df : DataFrame) (unique_id_field : String) :
    Except String Unit :=
  if df.verifyColumn unique_id_field = false then
    .error ("Column \x27" ++ unique_id_field ++ "\x27 not found")
  else .ok ()

/-- `maintain_graph.rs` lines 17-24, `get_column_types`: column name to
declared type, in column order. -/
def getColumnTypes (df : DataFrame) : List (String × String) :=
  df.columns.foldl (fun acc c => alInsert acc c (df.getColumnType c)) []

/-- `batch_operations.rs` `NodeAction` (missing from the sources; modelled
from the spec, section 4.3). -/
inductive NodeAction where
  | create (node_type : String) (id title : Value)
      (properties : List (String × Value)) : NodeAction
  | update (node_idx : Nat) (title : Value)
      (properties : List (String × Value)) : NodeAction
deriving Repr, DecidableEq

/-- `batch_operations.rs` `BatchProcessor::execute`, one action (missing
from the sources; modelled from the spec, section 4.3): `Create` appends a
fresh regular node; `Update` overwrites the title and merges the row's
properties into the existing mapping, the row winning on key collision. -/
def applyNodeAction (g : DirGraph) : NodeAction → DirGraph
  | .create node_type id title properties =>
    g.addNode (.regular id title node_type properties)
  | .update node_idx title properties =>
    match g.getNode node_idx with
    | some (.regular id _ nt props) =>
      g.setNode node_idx (.regular id title nt (alExtend props properties))
    | _ => g

/-- `BatchProcessor::execute` over the collected actions, in order. -/
def executeBatch (g : DirGraph) (actions : List NodeAction) : DirGraph :=
  actions.foldl applyNodeAction g

/-- The per-row property mapping built by `maintain_graph.rs` lines 94-104:
every column other than the id and title fields contributes a property,
missing cells stored as `Value::Null`. -/
def rowProperties (df : DataFrame) (row_idx : Nat)
    (unique_id_field title_field : String) : List (String × Value) :=
  df.columns.foldl (fun acc col_name =>
    if col_name != unique_id_field && col_name != title_field then
      alInsert acc col_name ((df.getValue row_idx col_name).getD .null)
    else acc) []

/-- The row loop of `maintain_graph.rs` lines 78-111: resolve the id cell
(skipping null/missing ids), build the title and properties, and record an
`Update` action when the pre-loop type lookup resolves the id, a `Create`
action otherwise.  `lookup_graph` is the graph snapshot the `TypeLookup`
was built from (it is built once, before the loop). -/
def collectNodeActions (lookup_graph : DirGraph) (df : DataFrame)
    (node_type unique_id_field title_field : String)
    (id_idx title_idx : Nat) : List NodeAction :=
  (List.range df.rows.length).filterMap (fun row_idx =>
    match df.getValueByIndex row_idx id_idx with
    | some .null => none
    | none => none
    | some id =>
      let title := (df.getValueByIndex row_idx title_idx).getD .null
      let properties := rowProperties df row_idx unique_id_field title_field
      match lookupCheckUid lookup_graph node_type id with
      | some node_idx => some (.update node_idx title properties)
      | none => some (.create node_type id title properties))

/-- `maintain_graph.rs` lines 26-115, `add_nodes`: note that the
`_conflict_handling` parameter is bound but never read, that the schema
node is created or merged (missing keys only - existing declared types are
kept) before the title column is resolved, and that the id/title column
resolution errors return after that schema mutation. -/
def maintainAddNodes (g : DirGraph) (df : DataFrame)
    (node_type unique_id_field : String) (node_title_field : Option String)
    (_conflict_handling : Option String) : Except String Unit × DirGraph :=
  let title_field := node_title_field.getD unique_id_field
  match checkDataValidity df unique_id_field with
  | .error e => (.error e, g)
  | .ok () =>
    let schema_node_idx := lookupCheckTitle g "SchemaNode" (.str node_type)
    let df_schema_properties := (getColumnTypes df).map
      (fun p => (p.1, Value.str p.2))
    let g1 := match schema_node_idx with
      | some idx =>
        match g.getNode idx with
        | some (.schemaN id title nt properties) =>
          let merged := df_schema_properties.foldl (fun acc p =>
            if (alGet acc p.1).isSome then acc else alInsert acc p.1 p.2)
            properties
          g.setNode idx (.schemaN id title nt merged)
        | _ => g
      | none =>
        g.addNode (.schemaN (.str node_type) (.str node_type) "SchemaNode"
          df_schema_properties)
    match df.getColumnIndex unique_id_field with
    | none => (.error ("Column \x27" ++ unique_id_field ++ "\x27 not found"), g1)
    | some id_idx =>
      match df.getColumnIndex title_field with
      | none => (.error ("Column \x27" ++ title_field ++ "\x27 not found"), g1)
      | some title_idx =>
        let actions := collectNodeActions g1 df node_type unique_id_field
          title_field id_idx title_idx
        (.ok (), executeBatch g1 actions)

/-- `maintain_graph.rs` lines 351-376, `update_node_properties`: process the
target list in order; a resolvable regular node receives the property
write, an unresolvable index is silently skipped, and a schema-node target
aborts with an error, keeping every write already applied. -/
def updateNodeProperties (g : DirGraph)
    (nodes : List (Option Nat × Value)) (property : String) :
    Except String Unit × DirGraph :=
  match nodes with
  | [] => (.ok (), g)
  | (node_idx, value) :: rest =>
    match node_idx with
    | some idx =>
      match g.getNode idx with
      | some (.regular id title nt properties) =>
        updateNodeProperties
          (g.setNode idx (.regular id title nt (alInsert properties property value)))
          rest property
      | some (.schemaN _ _ _ _) =>
        (.error "Cannot update properties on schema nodes", g)
      | none => updateNodeProperties g rest property
    | none => updateNodeProperties g rest property

/-- Specification-side view of the write-back loop: apply, in list order,
the property write to every target that resolves to a regular node,
silently skipping unresolvable indices and leaving other nodes alone. -/
def applyWrites (g : DirGraph) (targets : List (Option Nat × Value))
    (property : String) : DirGraph :=
  targets.foldl (fun gacc t =>
    match t.1 with
    | some idx =>
      (match gacc.getNode idx with
      | some (.regular id title nt props) =>
        gacc.setNode idx (.regular id title nt (alInsert props property t.2))
      | _ => gacc)
    | none => gacc) g

/-- Whether an index resolves to a schema node. -/
def schemaAtB (g : DirGraph) (i : Nat) : Bool :=
  match g.getNode i with
  | some (.schemaN _ _ _ _) => true
  | _ => false

/-! ### Selection model (`graph/schema.rs` `CurrentSelection`, modelled) -/

/-- One group of a selection level (modelled from the spec, section 4.5):
an optional parent with its ordered children.  Also serves as the
parent/child pair produced by `statistics_methods::get_parent_child_pairs`
(missing from the sources). -/
structure SelGroup where
  parent : Option Nat
  children : List Nat
deriving Repr, DecidableEq

/-- A selection level: an ordered sequence of groups (modelled from the
spec, section 4.5). -/
structure SelLevel where
  groups : List SelGroup
deriving Repr, DecidableEq

/-- `CurrentSelection` (modelled from the spec, section 4.5): an ordered
list of levels. -/
structure CurrentSelection where
  levels : List SelLevel
deriving Repr, DecidableEq

/-- First-occurrence deduplication, as `all_nodes()` promises a
deduplicated union. -/
def dedupFirst : List Nat → List Nat
  | [] => []
  | a :: l => a :: dedupFirst (l.filter (fun x => x ≠ a))
termination_by l => l.length
decreasing_by
  simp only [List.length_cons]
  exact Nat.lt_succ_of_le (List.length_filter_le _ _)

/-- `level.get_all_nodes()`: deduplicated union of all children across the
level's groups (modelled from the spec, section 4.5). -/
def SelLevel.getAllNodes (l : SelLevel) : List Nat :=
  dedupFirst (l.groups.foldl (fun acc g => acc ++ g.children) [])

/-- `level.is_empty()`. -/
def SelLevel.isEmptyL (l : SelLevel) : Bool := l.groups.isEmpty

/-- `selection.get_level_count()`. -/
def CurrentSelection.getLevelCount (s : CurrentSelection) : Nat :=
  s.levels.length

/-- `selection.get_level(i)`. -/
def CurrentSelection.getLevel (s : CurrentSelection) (i : Nat) :
    Option SelLevel :=
  s.levels.get? i

/-- `statistics_methods::get_parent_child_pairs` (missing from the sources;
modelled from the spec, sections 4.5 and 4.7): the groups of the effective
level - the explicit index if given, else the last level. -/
def getParentChildPairs (sel : CurrentSelection) (level_index : Option Nat) :
    List SelGroup :=
  let effective := level_index.getD (sel.getLevelCount - 1)
  match sel.getLevel effective with
  | some lvl => lvl.groups
  | none => []

/-! ### Expression engine (`graph/equation_parser.rs`, modelled) -/

/-- `AggregateType` (missing from the sources; modelled from the spec,
sections 4.7 and 6). -/
inductive AggregateType where
  | sum | avg | median | minAgg | maxAgg | count | std | varAgg
deriving Repr, DecidableEq

/-- `AggregateType::from_string` (modelled from the spec: case-insensitive,
fixed alias set). -/
def AggregateType.fromString (s : String) : Option AggregateType :=
  let t := strLower s
  if t == "sum" then some .sum
  else if t == "avg" || t == "average" || t == "mean" then some .avg
  else if t == "median" then some .median
  else if t == "min" then some .minAgg
  else if t == "max" then some .maxAgg
  else if t == "count" then some .count
  else if t == "std" || t == "stdev" || t == "stddev" then some .std
  else if t == "var" || t == "variance" then some .varAgg
  else none

/-- `AggregateType::get_supported_names` (modelled from the spec, section
6). -/
def AggregateType.getSupportedNames : List String :=
  ["sum", "avg", "average", "mean", "median", "min", "max", "count",
   "std", "stdev", "stddev", "var", "variance"]

/-- `Expr` (missing from the sources; modelled from the spec, section 4.7:
literals, property references, the four arithmetic operators, aggregate
calls). -/
inductive Expr where
  | num : Q → Expr
  | varE : String → Expr
  | addE : Expr → Expr → Expr
  | subE : Expr → Expr → Expr
  | mulE : Expr → Expr → Expr
  | divE : Expr → Expr → Expr
  | agg : AggregateType → Expr → Expr
deriving Repr, DecidableEq

/-- `Expr::extract_variables` (modelled): every property reference in the
tree. -/
def Expr.extractVariables : Expr → List String
  | .num _ => []
  | .varE v => [v]
  | .addE l r => l.extractVariables ++ r.extractVariables
  | .subE l r => l.extractVariables ++ r.extractVariables
  | .mulE l r => l.extractVariables ++ r.extractVariables
  | .divE l r => l.extractVariables ++ r.extractVariables
  | .agg _ e => e.extractVariables

/-- Tokens of the formula language (modelled). -/
inductive Tok where
  | ident : String → Tok
  | num : Q → Tok
  | lparen | rparen | plus | minus | star | slash : Tok
  | bad : Char → Tok
deriving Repr, DecidableEq

/-- Identifier characters. -/
def isIdentChar (c : Char) : Bool := c.isAlphanum || c == '_'

/-- Tokenizer (modelled): identifiers, decimal literals with an optional
fraction, operators and parentheses; anything else is a `bad` token. -/
def tokenizeAux : Nat → List Char → List Tok
  | 0, _ => []
  | _, [] => []
  | fuel + 1, c :: cs =>
    if c == ' ' then tokenizeAux fuel cs
    else if c.isAlpha || c == '_' then
      let span := (c :: cs).takeWhile isIdentChar
      .ident (String.mk span) :: tokenizeAux fuel ((c :: cs).dropWhile isIdentChar)
    else if c.isDigit then
      let ip := (c :: cs).takeWhile Char.isDigit
      let rest1 := (c :: cs).dropWhile Char.isDigit
      match rest1 with
      | '.' :: d :: ds =>
        if d.isDigit then
          let fp := (d :: ds).takeWhile Char.isDigit
          let rest2 := (d :: ds).dropWhile Char.isDigit
          .num ⟨(digitsToNat ip * 10 ^ fp.length + digitsToNat fp : Nat), 10 ^ fp.length⟩ ::
            tokenizeAux fuel rest2
        else .num (qOfNat (digitsToNat ip)) :: tokenizeAux fuel rest1
      | _ => .num (qOfNat (digitsToNat ip)) :: tokenizeAux fuel rest1
    else
      let tok := if c == '(' then Tok.lparen
        else if c == ')' then Tok.rparen
        else if c == '+' then Tok.plus
        else if c == '-' then Tok.minus
        else if c == '*' then Tok.star
        else if c == '/' then Tok.slash
        else Tok.bad c
      tok :: tokenizeAux fuel cs

/-! Recursive-descent parsing (modelled), fuel-indexed mutual descent:
primary level handles literals, property references, aggregate calls (only
known aggregate names parse as calls) and parenthesised groups; the
multiplicative and additive levels give the standard precedence. -/
mutual

def parsePrimary : Nat → List Tok → Except String (Expr × List Tok)
  | 0, _ => .error "expression too deeply nested"
  | fuel + 1, toks =>
    match toks with
    | .num q :: rest => .ok (.num q, rest)
    | .ident name :: .lparen :: rest =>
      (match AggregateType.fromString name with
      | some t =>
        match parseAddSub fuel rest with
        | .ok (inner, .rparen :: rest2) => .ok (.agg t inner, rest2)
        | .ok (_, _) => .error "expected closing parenthesis"
        | .error e => .error e
      | none => .error ("unknown function " ++ name))
    | .ident name :: rest => .ok (.varE name, rest)
    | .lparen :: rest =>
      (match parseAddSub fuel rest with
      | .ok (inner, .rparen :: rest2) => .ok (inner, rest2)
      | .ok (_, _) => .error "expected closing parenthesis"
      | .error e => .error e)
    | _ => .error "expected a value"

def parseMulDiv : Nat → List Tok → Except String (Expr × List Tok)
  | 0, _ => .error "expression too deeply nested"
  | fuel + 1, toks =>
    match parsePrimary fuel toks with
    | .error e => .error e
    | .ok (lhs, rest) => parseMulDivLoop fuel lhs rest

def parseMulDivLoop : Nat → Expr → List Tok → Except String (Expr × List Tok)
  | 0, _, _ => .error "expression too deeply nested"
  | fuel + 1, lhs, toks =>
    match toks with
    | .star :: rest =>
      (match parsePrimary fuel rest with
      | .ok (rhs, rest2) => parseMulDivLoop fuel (.mulE lhs rhs) rest2
      | .error e => .error e)
    | .slash :: rest =>
      (match parsePrimary fuel rest with
      | .ok (rhs, rest2) => parseMulDivLoop fuel (.divE lhs rhs) rest2
      | .error e => .error e)
    | _ => .ok (lhs, toks)

def parseAddSub : Nat → List Tok → Except String (Expr × List Tok)
  | 0, _ => .error "expression too deeply nested"
  | fuel + 1, toks =>
    match parseMulDiv fuel toks with
    | .error e => .error e
    | .ok (lhs, rest) => parseAddSubLoop fuel lhs rest

def parseAddSubLoop : Nat → Expr → List Tok → Except String (Expr × List Tok)
  | 0, _, _ => .error "expression too deeply nested"
  | fuel + 1, lhs, toks =>
    match toks with
    | .plus :: rest =>
      (match parseMulDiv fuel rest with
      | .ok (rhs, rest2) => parseAddSubLoop fuel (.addE lhs rhs) rest2
      | .error e => .error e)
    | .minus :: rest =>
      (match parseMulDiv fuel rest with
      | .ok (rhs, rest2) => parseAddSubLoop fuel (.subE lhs rhs) rest2
      | .error e => .error e)
    | _ => .ok (lhs, toks)

end

/-- `Parser::parse_expression` (missing from the sources; modelled from the
spec, section 4.7: the grammar with standard precedence; trailing input,
bad tokens, unbalanced parentheses and unknown call names fail). -/
def parseExpression (s : String) : Except String Expr :=
  let toks := tokenizeAux (s.data.length + 1) s.data
  match parseAddSub (4 * toks.length + 4) toks with
  | .ok (e, []) => .ok e
  | .ok (_, _) => .error "unexpected trailing input"
  | .error e => .error e

/-- Numeric view of a `Value` (modelled): integers, floats and unique-id
markers act as numbers. -/
def Value.toNum : Value → Option Q
  | .int64 n => some (qOfInt n)
  | .float64 q => some q
  | .uniqueIdV n => some (qOfInt n)
  | _ => none

/-- Pack a fraction back into a `Value`: whole results stay integers. -/
def ratToValue (q : Q) : Value :=
  if q.den != 0 && q.num % (q.den : Int) == 0 then .int64 (q.num / (q.den : Int))
  else .float64 q

/-- Arithmetic on two values (modelled): two integers combine to an
integer-when-whole, any other numeric pair to a float; non-numeric
operands fail. -/
def numBin (f : Q → Q → Q) (a b : Value) : Option Value :=
  match a, b with
  | .int64 x, .int64 y => some (ratToValue (f (qOfInt x) (qOfInt y)))
  | _, _ =>
    match a.toNum, b.toNum with
    | some x, some y => some (.float64 (f x y))
    | _, _ => none

/-- Reduce an aggregate over the collected numeric child values
(modelled from the spec, section 4.7; standard deviation uses the rational
square root, exact only on perfect squares - no claim evaluates it). -/
def aggReduce : AggregateType → List Q → Q
  | .sum, vs => vs.foldl qAdd (qOfNat 0)
  | .avg, vs => qDiv (vs.foldl qAdd (qOfNat 0)) (qOfNat vs.length)
  | .median, vs =>
    let sorted := stableSort qLe vs
    let n := sorted.length
    if n % 2 == 1 then sorted.getD (n / 2) (qOfNat 0)
    else qDiv (qAdd (sorted.getD (n / 2 - 1) (qOfNat 0))
      (sorted.getD (n / 2) (qOfNat 0))) (qOfNat 2)
  | .minAgg, vs => vs.foldl (fun a b => if qLe a b then a else b) (vs.headD (qOfNat 0))
  | .maxAgg, vs => vs.foldl (fun a b => if qLe b a then a else b) (vs.headD (qOfNat 0))
  | .count, vs => qOfNat vs.length
  | .std, vs =>
    let n := qOfNat vs.length
    let mean := qDiv (vs.foldl qAdd (qOfNat 0)) n
    qSqrt (qDiv ((vs.map (fun v => qMul (qSub v mean) (qSub v mean))).foldl
      qAdd (qOfNat 0)) n)
  | .varAgg, vs =>
    let n := qOfNat vs.length
    let mean := qDiv (vs.foldl qAdd (qOfNat 0)) n
    qDiv ((vs.map (fun v => qMul (qSub v mean) (qSub v mean))).foldl
      qAdd (qOfNat 0)) n

/-- `Evaluator::evaluate` (missing from the sources; modelled from the
spec, section 4.7): evaluate against the object multiset.  A property
reference reads the first object; an aggregate evaluates its body once per
object, keeps the numeric successes, and fails with an explicit error when
no child yields a value. -/
def evaluatorEvaluate (e : Expr)
    (objs : List (List (String × Value))) : Except String Value :=
  match e with
  | .num q => .ok (ratToValue q)
  | .varE v =>
    (match objs.head? with
    | some obj =>
      match alGet obj v with
      | some val => .ok val
      | none => .error ("Variable \x27" ++ v ++ "\x27 not found")
    | none => .error "No objects to evaluate")
  | .addE l r => evalBin qAdd (evaluatorEvaluate l objs) (evaluatorEvaluate r objs)
  | .subE l r => evalBin qSub (evaluatorEvaluate l objs) (evaluatorEvaluate r objs)
  | .mulE l r => evalBin qMul (evaluatorEvaluate l objs) (evaluatorEvaluate r objs)
  | .divE l r => evalBin qDiv (evaluatorEvaluate l objs) (evaluatorEvaluate r objs)
  | .agg t inner =>
    let vals := objs.filterMap (fun obj =>
      match evaluatorEvaluate inner [obj] with
      | .ok v => v.toNum
      | .error _ => none)
    if vals.isEmpty then .error "No valid values for aggregation"
    else .ok (ratToValue (aggReduce t vals))
where
  evalBin (f : Q → Q → Q) :
      Except String Value → Except String Value → Except String Value
    | .ok a, .ok b =>
      (match numBin f a b with
      | some v => .ok v
      | none => .error "Type error in arithmetic")
    | .error e, _ => .error e
    | _, .error e => .error e

/-! ### Calculations (`calculations.rs`) -/

/-- `calculations.rs` `StatResult`. -/
structure StatResult where
  node_idx : Option Nat
  parent_idx : Option Nat
  parent_title : Option String
  value : Value
  error_msg : Option String
deriving Repr, DecidableEq

/-- `calculations.rs` `EvaluationResult`. -/
inductive EvaluationResult where
  | stored : EvaluationResult
  | computed : List StatResult → EvaluationResult
deriving Repr, DecidableEq

/-- `calculations.rs` lines 354-363, `has_aggregation`. -/
def hasAggregation : Expr → Bool
  | .agg _ _ => true
  | .addE l r => hasAggregation l || hasAggregation r
  | .subE l r => hasAggregation l || hasAggregation r
  | .mulE l r => hasAggregation l || hasAggregation r
  | .divE l r => hasAggregation l || hasAggregation r
  | _ => false

/-- `s.parse::<f64>()` as used by `convert_node_to_object`: an optional
sign, digits, and an optional decimal fraction (a faithful-enough subset
of Rust float grammar; no claim depends on the exotic forms). -/
def parseF64 (s : String) : Option Q :=
  let core (t : String) : Option Q :=
    match splitOnChar t '.' with
    | [a] => (strToNat? a).map qOfNat
    | [a, b] =>
      (match strToNat? a, strToNat? b with
      | some na, some nb =>
        some ⟨(na * 10 ^ b.length + nb : Nat), 10 ^ b.length⟩
      | _, _ => none)
    | _ => none
  match s.data with
  | '-' :: rest => (core (String.mk rest)).map (fun q => ⟨-q.num, q.den⟩)
  | _ => core s

/-- `calculations.rs` lines 365-398, `convert_node_to_object`: numeric and
null properties pass through; text that parses as a number becomes a
float, other text passes through. -/
def convertNodeToObject (node : NodeData) : List (String × Value) :=
  node.props.foldl (fun obj p =>
    match p.2 with
    | .str s =>
      (match parseF64 s with
      | some q => alInsert obj p.1 (.float64 q)
      | none => alInsert obj p.1 p.2)
    | _ => alInsert obj p.1 p.2) []

/-- The cached parent-title lookup of `evaluate_equation` (the cache is
observationally the direct lookup, so it is embedded directly). -/
def parentTitleOf (g : DirGraph) (idx : Nat) : Option String :=
  ((g.getNode idx).bind (fun n => n.getField "title")).bind Value.asStringV

/-- `calculations.rs` lines 240-352, `evaluate_equation`: with an aggregate,
one result per parent/child pair - an empty (unresolvable) group yields a
"No valid nodes found" error result, otherwise the evaluator's output or
its error is recorded; without an aggregate, one result per node of the
effective level, the evaluator's per-node error recorded in that result. -/
def evaluateEquation (g : DirGraph) (sel : CurrentSelection)
    (parsed_expr : Expr) (level_index : Option Nat) : List StatResult :=
  if hasAggregation parsed_expr then
    let pairs := getParentChildPairs sel level_index
    pairs.map (fun pair =>
      let child_nodes := pair.children.filterMap (fun ni =>
        (g.getNode ni).map (fun n => (ni, convertNodeToObject n)))
      if child_nodes.isEmpty then
        ⟨none, pair.parent, pair.parent.bind (parentTitleOf g), .null,
          some "No valid nodes found"⟩
      else
        let objects := child_nodes.map Prod.snd
        match evaluatorEvaluate parsed_expr objects with
        | .ok value =>
          ⟨none, pair.parent, pair.parent.bind (parentTitleOf g), value, none⟩
        | .error err =>
          ⟨none, pair.parent, pair.parent.bind (parentTitleOf g), .null,
            some err⟩)
  else
    let effective := level_index.getD (sel.getLevelCount - 1)
    match sel.getLevel effective with
    | none => []
    | some level =>
      level.getAllNodes.map (fun ni =>
        match g.getNode ni with
        | some node =>
          let title := (node.getField "title").bind Value.asStringV
          let obj := convertNodeToObject node
          (match evaluatorEvaluate parsed_expr [obj] with
          | .ok value => ⟨some ni, none, title, value, none⟩
          | .error err => ⟨some ni, none, title, .null, some err⟩)
        | none => ⟨some ni, none, none, .null, some "Node not found"⟩)

/-- `calculations.rs` lines 221-223, `is_known_aggregate`. -/
def isKnownAggregate (name : String) : Bool :=
  (AggregateType.fromString name).isSome

/-- `calculations.rs` lines 199-218, `extract_unknown_aggregate_function`:
when the lowercased text splits around a parenthesis and the part before
it is an unrecognized alphanumeric-or-underscore word, report it. -/
def extractUnknownAggregateFunction (expression : String) : Option String :=
  let lowercase_expr := strLower expression
  let parts := splitOnChar lowercase_expr '('
  match parts with
  | func :: _ :: _ =>
    let func_part := trimStr func
    if isKnownAggregate func_part = false then
      if func_part.data.all (fun c => c.isAlphanum || c == '_') then
        some func_part
      else none
    else none
  | _ => none

/-- `calculations.rs` lines 226-236, `is_likely_aggregate_name`. -/
def isLikelyAggregateName (name : String) : Bool :=
  let name := strLower (trimStr name)
  ["sum", "avg", "average", "mean", "median", "min", "max", "count",
   "std", "stdev", "stddev", "var", "variance"].contains name

/-- `calculations.rs` lines 400-413, `count_nodes_in_level`: the node count
of the effective level; an invalid level index hits
`.expect("Level should exist")` - a panic, not a returned error. -/
def countNodesInLevel (sel : CurrentSelection) (level_index : Option Nat) :
    RRes Nat :=
  let effective := match level_index with
    | some idx => idx
    | none => sel.getLevelCount - 1
  match sel.getLevel effective with
  | some level => .ok level.getAllNodes.length
  | none => .panicked "Level should exist"

/-- The schema-variable validation block of `process_equation`
(`calculations.rs` lines 92-129): when the effective level's first node is
a regular node whose type has a schema node, every non-reserved variable
must be a schema property; returns the offending error message, if any. -/
def schemaVarCheck (g : DirGraph) (sel : CurrentSelection) (effective : Nat)
    (vars : List String) : Option String :=
  match sel.getLevel effective with
  | none => none
  | some level =>
    if level.isEmptyL then none
    else
      match level.getAllNodes.head? with
      | none => none
      | some n0 =>
        match g.getNode n0 with
        | some (.regular _ _ node_type _) =>
          (match lookupCheckTitle g "SchemaNode" (.str node_type) with
          | some schema_idx =>
            (match g.getNode schema_idx with
            | some (.schemaN _ _ _ properties) =>
              (match vars.find? (fun v =>
                  v != "id" && v != "title" && v != "type" &&
                  (alGet properties v).isNone) with
              | some var =>
                some ("Property \x27" ++ var ++ "\x27 does not exist on \x27" ++
                  node_type ++ "\x27 nodes. Available properties: " ++
                  joinComma (properties.map Prod.fst))
              | none => none)
            | _ => none)
          | none => none)
        | _ => none

/-- The `HashMap` from node index to result built by the non-aggregate
store path (last insertion wins on a duplicate index). -/
def resultMapLookup (results : List StatResult) (ni : Nat) :
    Option StatResult :=
  results.reverse.find? (fun r => r.node_idx == some ni)

/-- `calculations.rs` lines 25-196, `process_equation`: the unknown-aggregate
guard, parse with targeted diagnostics, empty-selection and level checks,
schema-variable validation, evaluation, and the optional write-back through
`update_node_properties`. -/
def processEquation (g : DirGraph) (sel : CurrentSelection)
    (expression : String) (level_index : Option Nat)
    (store_as : Option String) : Except String EvaluationResult × DirGraph :=
  match extractUnknownAggregateFunction expression with
  | some unknown_func =>
    (.error ("Unknown aggregate function \x27" ++ unknown_func ++
      "\x27. Supported functions are: " ++
      joinComma AggregateType.getSupportedNames), g)
  | none =>
    match parseExpression expression with
    | .error err =>
      if expression == "" then (.error "Expression cannot be empty.", g)
      else if containsChar expression '(' && (containsChar expression ')') = false then
        (.error "Missing closing parenthesis in expression.", g)
      else if (containsChar expression '(') = false && containsChar expression ')' then
        (.error "Unexpected closing parenthesis in expression.", g)
      else if (containsChar expression '(') = false &&
          isLikelyAggregateName expression then
        (.error ("Function \x27" ++ expression ++
          "\x27 requires parentheses. Try \x27" ++ expression ++
          "(property)\x27 instead."), g)
      else
        (.error ("Failed to parse expression: " ++ err ++
          ". Check for syntax errors or case sensitivity in function names (use \x27sum\x27, not \x27SUM\x27)."), g)
    | .ok parsed_expr =>
      let vars := parsed_expr.extractVariables
      if sel.getLevelCount == 0 then
        (.error "No nodes selected. Please apply filters or traversals before calculating.", g)
      else
        let effective := level_index.getD (sel.getLevelCount - 1)
        match sel.getLevel effective with
        | none =>
          (.error ("Invalid level index: " ++ toString effective ++
            ". Selection only has " ++ toString sel.getLevelCount ++
            " levels."), g)
        | some level =>
          if level.getAllNodes.isEmpty then
            (.error ("No nodes found at level " ++ toString effective ++
              ". Make sure your filters and traversals return data."), g)
          else
            match schemaVarCheck g sel effective vars with
            | some msg => (.error msg, g)
            | none =>
              let is_aggregation := hasAggregation parsed_expr
              let results := evaluateEquation g sel parsed_expr level_index
              match store_as with
              | none =>
                if results.isEmpty then
                  (.error "No results from calculation. Check that your selection contains data.", g)
                else (.ok (.computed results), g)
              | some target_property =>
                let nodes_to_update : List (Option Nat × Value) :=
                  if is_aggregation then
                    results.filterMap (fun r =>
                      r.parent_idx.bind (fun p =>
                        if (g.getNode p).isSome then some (some p, r.value)
                        else none))
                  else
                    match sel.getLevel effective with
                    | some lvl =>
                      lvl.getAllNodes.filterMap (fun ni =>
                        match resultMapLookup results ni with
                        | some r =>
                          if (g.getNode ni).isSome then some (some ni, r.value)
                          else none
                        | none => none)
                    | none => []
                if nodes_to_update.isEmpty then
                  (.error ("No valid nodes found to store \x27" ++
                    target_property ++ "\x27. Selection level: " ++
                    toString effective ++ ", Aggregation: " ++
                    (if is_aggregation then "true" else "false")), g)
                else
                  match updateNodeProperties g nodes_to_update target_property with
                  | (.ok (), g2) => (.ok .stored, g2)
                  | (.error e, g2) => (.error e, g2)

/-- The identity skeleton of a node: regular nodes are identified by
`(type name, unique id)`, schema nodes by `(data-type kind, name)`; a
node's skeleton is unaffected by attribute, title or calculation updates. -/
inductive NodeKey where
  | std : String → Int → NodeKey
  | dtk : String → String → NodeKey
deriving Repr, DecidableEq

/-- A node's identity skeleton. -/
def Node.key : Node → NodeKey
  | .standard nt uid _ _ => .std nt uid
  | .dataType dt n _ _ => .dtk dt n

/-- The graph's identity skeleton: node keys in index order.  The node
count is its length. -/
def skel (g : OldGraph) : List NodeKey := g.nodes.map Node.key

/-- `graph.node_count()` - the number of nodes. -/
def nodeCount (g : OldGraph) : Nat := g.nodes.length

/-- Whether a key is the regular-node key `(t, u)`. -/
def keyMatchesStd (k : NodeKey) (t : String) (u : Int) : Bool :=
  match k with
  | .std nt uid => nt == t && uid == u
  | _ => false

/-- Whether a key is the schema-node key `(dt, n)`. -/
def keyMatchesDT (k : NodeKey) (dt n : String) : Bool :=
  match k with
  | .dtk dt0 n0 => dt0 == dt && n0 == n
  | _ => false

/-- `findStandardNode` viewed on the skeleton alone. -/
def findKeyStd (ks : List NodeKey) (t : String) (u : Int) : Option Nat :=
  (List.range ks.length).find? (fun i =>
    (ks.get? i).elim false (fun k => keyMatchesStd k t u))

/-- `findDataTypeNode` viewed on the skeleton alone. -/
def findKeyDT (ks : List NodeKey) (dt n : String) : Option Nat :=
  (List.range ks.length).find? (fun i =>
    (ks.get? i).elim false (fun k => keyMatchesDT k dt n))

/-- Effect of one conflict-resolved row on the skeleton: an existing
`(t, u)` node keeps the skeleton unchanged (replace, update and skip all
preserve identity), a fresh id appends. -/
def pushStd (ks : List NodeKey) (t : String) (u : Int) : List NodeKey :=
  if (findKeyStd ks t u).isSome then ks else ks ++ [.std t u]

/-- Effect of schema registration on the skeleton. -/
def pushDT (ks : List NodeKey) (dt n : String) : List NodeKey :=
  if (findKeyDT ks dt n).isSome then ks else ks ++ [.dtk dt n]

/-- Effect of one row of the ingestion loop on the skeleton: a skipped row
leaves it unchanged. -/
def rowStep (ks : List NodeKey) (t : String) : Option Int → List NodeKey
  | none => ks
  | some u => pushStd ks t u

/-- The unique id the row loop resolves for a row - `none` when the row is
skipped (non-sequence row, missing cell, or null/unparseable id).  This is
independent of the schema, the datetime formats and the chrono parser,
which the scan only uses to coerce attribute values. -/
def rowId (columns : List String) (unique_id_field : String)
    (node_title_field : Option String)
    (attribute_columns : Option (List String)) (r : PyRow) : Option Int :=
  match r with
  | none => none
  | some cells =>
    (scanCells (fun _ _ => none) [] [] "" unique_id_field node_title_field
      attribute_columns cells columns.enum [] none none).bind (fun r => r.2.1)

/-- The claim-side reading of one filter predicate key (spec, section 4.6):
reserved keys `type`/`node_type`, `title`, `unique_id` compare against node
metadata, an absent title never matches, and any other key matches iff the
node has that attribute and its text rendering equals the predicate value. -/
def claimKeyMatches (node_type : String) (unique_id : Int)
    (title : Option String) (attributes : List (String × AttributeValue))
    (k v : String) : Prop :=
  if k = "type" ∨ k = "node_type" then node_type = v
  else if k = "title" then ∃ t, title = some t ∧ t = v
  else if k = "unique_id" then toString unique_id = v
  else ∃ a, alGet attributes k = some a ∧ a.toText = v

/-! ### Theorems -/

theorem alGet_nil {β : Type} (k : String) : alGet ([] : List (String × β)) k = none := rfl

theorem alGet_cons {β : Type} (p : String × β) (rest : List (String × β)) (k : String) :
    alGet (p :: rest) k = if p.1 = k then some p.2 else alGet rest k := by
  by_cases h : p.1 = k
  · simp [alGet, List.find?_cons_of_pos, h]
  · simp only [alGet, h, if_false]
    rw [List.find?_cons_of_neg]
    simp [h]

theorem alGet_alInsert {β : Type} (m : List (String × β)) (k k2 : String) (v : β) :
    alGet (alInsert m k v) k2 = if k2 = k then some v else alGet m k2 := by
  induction m with
  | nil =>
    simp only [alInsert, alGet_cons, alGet_nil]
    by_cases h : k2 = k <;> simp [h]
    intro hc; exact absurd hc.symm h
  | cons p rest ih =>
    simp only [alInsert]
    by_cases h : p.1 = k
    · simp only [h, beq_self_eq_true, if_true, alGet_cons]
      by_cases h2 : k2 = k
      · simp [h2]
      · have h3 : ¬k = k2 := fun hc => h2 hc.symm
        simp [h2, h3]
    · simp only [beq_iff_eq, h, if_false, alGet_cons, ih]
      by_cases h2 : p.1 = k2 <;> by_cases h3 : k2 = k <;> simp_all

theorem alGet_eq_none {β : Type} (m : List (String × β)) (k : String)
    (h : ∀ p ∈ m, p.1 ≠ k) : alGet m k = none := by
  induction m with
  | nil => rfl
  | cons p rest ih =>
    rw [alGet_cons]
    simp only [h p (by simp), if_false]
    exact ih (fun q hq => h q (by simp [hq]))

theorem alGet_alExtend {β : Type} (m n : List (String × β)) (k : String)
    (hnd : (n.map Prod.fst).Nodup) :
    alGet (alExtend m n) k = (alGet n k).elim (alGet m k) some := by
  induction n generalizing m with
  | nil => simp [alExtend, alGet_nil]
  | cons p rest ih =>
    simp only [List.map_cons, List.nodup_cons] at hnd
    simp only [alExtend, List.foldl_cons] at *
    rw [ih _ hnd.2]
    simp only [alGet_cons, alGet_alInsert]
    by_cases h2 : p.1 = k
    · have hnone : alGet rest k = none := by
        apply alGet_eq_none
        intro q hq hk
        exact hnd.1 (by rw [h2, ← hk]; exact List.mem_map_of_mem Prod.fst hq)
      simp [hnone, h2]
    · cases h5 : alGet rest k with
      | some v => simp [h5, h2]
      | none =>
        simp only [h5, h2, if_false, Option.elim]
        have h6 : ¬k = p.1 := fun hc => h2 hc.symm
        simp [h6]

/-- C1 (amended): the conflict-policy semantics hold for the
`update_or_create_node` ingestion path (`add_nodes.rs`): `replace` rebuilds
the node from the row alone, `update` merges with the row winning and every
unspecified property preserved, `skip` leaves the graph untouched, and a
row with no matching `(node_type, unique_id)` always creates a node -
under any policy string.  (The newer entry point `maintain_graph::add_nodes`
accepts a conflict policy but ignores it, see the counterexample.) -/
theorem c1_policy_semantics (g : OldGraph) (t : String) (u : Int)
    (title : Option String) (attrs : List (String × AttributeValue))
    (hnd : (attrs.map Prod.fst).Nodup) :
    (∀ i, findStandardNode g t u = some i →
      updateOrCreateNode g t u title (some attrs) "replace" =
        .ok (g.setNode i (.standard t u title attrs), i)) ∧
    (∀ i nt uid tt old, findStandardNode g t u = some i →
      g.nodeAt i = some (.standard nt uid tt old) →
      ∃ merged,
        updateOrCreateNode g t u title (some attrs) "update" =
          .ok (g.setNode i (.standard nt uid tt merged), i) ∧
        ∀ k, alGet merged k = (alGet attrs k).elim (alGet old k) some) ∧
    (∀ i, findStandardNode g t u = some i →
      updateOrCreateNode g t u title (some attrs) "skip" = .ok (g, i)) ∧
    (findStandardNode g t u = none → ∀ ch,
      updateOrCreateNode g t u title (some attrs) ch =
        .ok (g.addNode (.standard t u title attrs))) := by
  refine ⟨?_, ?_, ?_, ?_⟩
  · intro i hfind
    simp [updateOrCreateNode, hfind, Node.newStandard]
  · intro i nt uid tt old hfind hnode
    refine ⟨alExtend old attrs, ?_, ?_⟩
    · simp [updateOrCreateNode, hfind, hnode]
    · intro k; exact alGet_alExtend old attrs k hnd
  · intro i hfind
    simp [updateOrCreateNode, hfind]
  · intro hfind ch
    simp [updateOrCreateNode, hfind, Node.newStandard]

/-- C1 witness: concrete skip and update runs through the theorem. -/
theorem c1_policy_semantics_witness :
    (updateOrCreateNode ⟨[.standard "T" 1 (some "x") [("a", .int 1), ("b", .int 2)]], []⟩
      "T" 1 none (some [("b", .int 9), ("c", .int 3)]) "skip" =
      .ok (⟨[.standard "T" 1 (some "x") [("a", .int 1), ("b", .int 2)]], []⟩, 0)) ∧
    (∃ merged,
      updateOrCreateNode ⟨[.standard "T" 1 (some "x") [("a", .int 1), ("b", .int 2)]], []⟩
        "T" 1 none (some [("b", .int 9), ("c", .int 3)]) "update" =
        .ok (OldGraph.setNode ⟨[.standard "T" 1 (some "x") [("a", .int 1), ("b", .int 2)]], []⟩
          0 (.standard "T" 1 (some "x") merged), 0) ∧
      ∀ k, alGet merged k =
        (alGet [("b", AttributeValue.int 9), ("c", .int 3)] k).elim
          (alGet [("a", AttributeValue.int 1), ("b", .int 2)] k) some) := by
  have h := c1_policy_semantics ⟨[.standard "T" 1 (some "x") [("a", .int 1), ("b", .int 2)]], []⟩
    "T" 1 none [("b", .int 9), ("c", .int 3)] (by decide)
  exact ⟨h.2.2.1 0 (by decide), h.2.1 0 "T" 1 (some "x") [("a", .int 1), ("b", .int 2)]
    (by decide) (by decide)⟩

/-- C1 counterexample: the claim quantifies over every ingestion entry point
accepting a conflict policy, but `maintain_graph::add_nodes` ignores its
policy argument - under "skip" an existing matching node is still mutated,
and under "replace" a property absent from the row survives. -/
theorem c1_counterexample :
    ((maintainAddNodes ⟨[.regular (.int64 1) (.str "old") "Person" [("extra", .str "keep")]]⟩
        ⟨["id", "b"], ["Int64", "Int64"], [[.int64 1, .int64 2]]⟩
        "Person" "id" none (some "skip")).2.getNode 0 ≠
      some (.regular (.int64 1) (.str "old") "Person" [("extra", .str "keep")])) ∧
    (alGet (((maintainAddNodes ⟨[.regular (.int64 1) (.str "old") "Person" [("extra", .str "keep")]]⟩
        ⟨["id", "b"], ["Int64", "Int64"], [[.int64 1, .int64 2]]⟩
        "Person" "id" none (some "replace")).2.nodes.headD (.regular .null .null "" [])).props)
      "extra" = some (.str "keep")) := by
  exact ⟨by decide, by decide⟩

/-- C2 (amended): `update_or_retrieve_schema` merges supplied observed types
into an existing schema node with last write winning, replacing the node in
a single assignment (no intermediate state), and creates a schema node
holding exactly the observed types when none exists.  (The inline schema
merge in `maintain_graph::add_nodes` instead keeps existing declared types,
see the counterexample.) -/
theorem c2_schema_merge (g : OldGraph) (dt name : String)
    (new_types : List (String × String))
    (hnd : (new_types.map Prod.fst).Nodup) :
    (∀ idx dt0 n0 curr calcs, findDataTypeNode g dt name = some idx →
      g.nodeAt idx = some (.dataType dt0 n0 curr calcs) →
      ∃ merged,
        updateOrRetrieveSchema g dt name (some new_types) =
          (.ok merged, g.setNode idx (.dataType dt name merged calcs)) ∧
        ∀ k, alGet merged k = (alGet new_types k).elim (alGet curr k) some) ∧
    (findDataTypeNode g dt name = none →
      updateOrRetrieveSchema g dt name (some new_types) =
        (.ok new_types, (g.addNode (.dataType dt name new_types none)).1)) := by
  constructor
  · intro idx dt0 n0 curr calcs hfind hnode
    refine ⟨alExtend curr new_types, ?_, ?_⟩
    · simp [updateOrRetrieveSchema, hfind, hnode, Node.newDataType]
    · intro k; exact alGet_alExtend curr new_types k hnd
  · intro hfind
    simp [updateOrRetrieveSchema, hfind, Node.newDataType]

/-- C2 witness: a concrete merge through the theorem, overwriting one
declared type and adding another. -/
theorem c2_schema_merge_witness :
    ∃ merged,
      updateOrRetrieveSchema ⟨[.dataType "Node" "T" [("a", "Int"), ("b", "String")] none], []⟩
        "Node" "T" (some [("a", "Float"), ("c", "Int")]) =
        (.ok merged, OldGraph.setNode ⟨[.dataType "Node" "T" [("a", "Int"), ("b", "String")] none], []⟩
          0 (.dataType "Node" "T" merged none)) ∧
      ∀ k, alGet merged k =
        (alGet [("a", "Float"), ("c", "Int")] k).elim
          (alGet [("a", "Int"), ("b", "String")] k) some :=
  (c2_schema_merge ⟨[.dataType "Node" "T" [("a", "Int"), ("b", "String")] none], []⟩
    "Node" "T" [("a", "Float"), ("c", "Int")] (by decide)).1
    0 "Node" "T" [("a", "Int"), ("b", "String")] none (by decide) (by decide)

/-- C2 counterexample: the schema-registration site inside
`maintain_graph::add_nodes` does not overwrite existing keys - with an
existing declared type `a : Int` and an observed type `a : Float64`, the
schema node still declares `Int` afterwards. -/
theorem c2_counterexample :
    (alGet (((maintainAddNodes
        ⟨[.schemaN (.str "Person") (.str "Person") "SchemaNode" [("a", .str "Int")]]⟩
        ⟨["id", "a"], ["Int64", "Float64"], []⟩
        "Person" "id" none none).2.nodes.headD (.regular .null .null "" [])).props)
      "a" = some (.str "Int")) ∧
    ((⟨["id", "a"], ["Int64", "Float64"], []⟩ : DataFrame).getColumnType "a" = "Float64") := by
  exact ⟨by decide, by decide⟩


theorem getNode_setNode (g : DirGraph) (idx : Nat) (n : NodeData) (i : Nat) :
    (g.setNode idx n).getNode i =
      if i = idx ∧ idx < g.nodes.length then some n else g.getNode i := by
  simp only [DirGraph.setNode, DirGraph.getNode, List.getElem?_set]
  by_cases h1 : idx = i
  · subst h1
    by_cases h2 : idx < g.nodes.length
    · simp [h2]
    · rw [List.set_eq_of_length_le (Nat.le_of_not_lt h2)]
      simp [h2]
  · have h3 : ¬(i = idx ∧ idx < g.nodes.length) := fun hc => h1 hc.1.symm
    simp [h1, h3]

theorem schemaAtB_setNode_regular (g : DirGraph) (idx : Nat)
    (id title : Value) (nt : String) (props : List (String × Value))
    (hreg : g.getNode idx = some (.regular id title nt props))
    (id2 title2 : Value) (nt2 : String) (props2 : List (String × Value)) (i : Nat) :
    schemaAtB (g.setNode idx (.regular id2 title2 nt2 props2)) i = schemaAtB g i := by
  simp only [schemaAtB, getNode_setNode]
  by_cases h : i = idx ∧ idx < g.nodes.length
  · obtain ⟨h1, h2⟩ := h
    subst h1
    rw [if_pos ⟨rfl, h2⟩, hreg]
  · simp [h]

theorem updateNodeProperties_no_schema (property : String) :
    ∀ (targets : List (Option Nat × Value)) (g : DirGraph),
    (∀ t ∈ targets, ∀ i, t.1 = some i → schemaAtB g i = false) →
    updateNodeProperties g targets property = (.ok (), applyWrites g targets property) := by
  intro targets
  induction targets with
  | nil => intro g _; simp [updateNodeProperties, applyWrites]
  | cons t rest ih =>
    intro g hno
    obtain ⟨oi, v⟩ := t
    match hoi : oi with
    | none =>
      simp only [updateNodeProperties, applyWrites, List.foldl_cons]
      exact ih g (fun t ht => hno t (by simp [ht]))
    | some idx =>
      have hNotSchema : schemaAtB g idx = false :=
        hno (some idx, v) (by simp) idx rfl
      match hn : g.getNode idx with
      | none =>
        simp only [updateNodeProperties, applyWrites, List.foldl_cons, hn]
        exact ih g (fun t ht => hno t (by simp [ht]))
      | some (.regular id title nt props) =>
        simp only [updateNodeProperties, applyWrites, List.foldl_cons, hn]
        apply ih
        intro t ht i hti
        rw [schemaAtB_setNode_regular g idx id title nt props hn]
        exact hno t (by simp [ht]) i hti
      | some (.schemaN a b c d) =>
        exfalso
        rw [schemaAtB, hn] at hNotSchema
        simp at hNotSchema

theorem updateNodeProperties_schema_abort (property : String) (j : Nat) (v : Value) :
    ∀ (pre : List (Option Nat × Value)) (rest : List (Option Nat × Value)) (g : DirGraph),
    (∀ t ∈ pre, ∀ i, t.1 = some i → schemaAtB g i = false) →
    schemaAtB g j = true →
    updateNodeProperties g (pre ++ (some j, v) :: rest) property =
      (.error "Cannot update properties on schema nodes", applyWrites g pre property) := by
  intro pre
  induction pre with
  | nil =>
    intro rest g _ hj
    rw [schemaAtB] at hj
    match hn : g.getNode j with
    | none => rw [hn] at hj; simp at hj
    | some (.regular a b c d) => rw [hn] at hj; simp at hj
    | some (.schemaN a b c d) =>
      simp [updateNodeProperties, applyWrites, hn]
  | cons t pre ih =>
    intro rest g hno hj
    obtain ⟨oi, w⟩ := t
    match hoi : oi with
    | none =>
      simp only [List.cons_append, updateNodeProperties, applyWrites, List.foldl_cons]
      exact ih rest g (fun t ht => hno t (by simp [ht])) hj
    | some idx =>
      have hNotSchema : schemaAtB g idx = false :=
        hno (some idx, w) (by simp) idx rfl
      match hn : g.getNode idx with
      | none =>
        simp only [List.cons_append, updateNodeProperties, applyWrites, List.foldl_cons, hn]
        exact ih rest g (fun t ht => hno t (by simp [ht])) hj
      | some (.regular id title nt props) =>
        simp only [List.cons_append, updateNodeProperties, applyWrites, List.foldl_cons, hn]
        apply ih
        · intro t ht i hti
          rw [schemaAtB_setNode_regular g idx id title nt props hn]
          exact hno t (by simp [ht]) i hti
        · rw [schemaAtB_setNode_regular g idx id title nt props hn]
          exact hj
      | some (.schemaN a b c d) =>
        exfalso
        rw [schemaAtB, hn] at hNotSchema
        simp at hNotSchema

/-- C10: the node-property write-back path processes its targets in order;
with no schema-node target every write lands (unresolvable indices are
silently skipped, captured by `applyWrites`), and a schema-node target
aborts with an error while every earlier regular write stays applied and
nothing after the failing target is touched. -/
theorem c10_writeback_order :
    (∀ (g : DirGraph) (targets : List (Option Nat × Value)) (property : String),
      (∀ t ∈ targets, ∀ i, t.1 = some i → schemaAtB g i = false) →
      updateNodeProperties g targets property =
        (.ok (), applyWrites g targets property)) ∧
    (∀ (g : DirGraph) (pre rest : List (Option Nat × Value)) (j : Nat)
      (v : Value) (property : String),
      (∀ t ∈ pre, ∀ i, t.1 = some i → schemaAtB g i = false) →
      schemaAtB g j = true →
      updateNodeProperties g (pre ++ (some j, v) :: rest) property =
        (.error "Cannot update properties on schema nodes",
          applyWrites g pre property)) :=
  ⟨fun g targets property h => updateNodeProperties_no_schema property targets g h,
   fun g pre rest j v property h hj =>
     updateNodeProperties_schema_abort property j v pre rest g h hj⟩

/-- C10 witness: a concrete batch with one applied write, one silently
skipped unresolvable target, then a schema-node target aborting the rest. -/
theorem c10_writeback_order_witness :
    updateNodeProperties
      ⟨[.regular (.int64 1) .null "T" [],
        .schemaN (.str "T") (.str "T") "SchemaNode" [],
        .regular (.int64 2) .null "T" []]⟩
      [(some 0, .int64 9), (some 7, .int64 8), (some 1, .int64 7), (some 2, .int64 6)]
      "p" =
      (.error "Cannot update properties on schema nodes",
        applyWrites ⟨[.regular (.int64 1) .null "T" [],
          .schemaN (.str "T") (.str "T") "SchemaNode" [],
          .regular (.int64 2) .null "T" []]⟩
          [(some 0, .int64 9), (some 7, .int64 8)] "p") :=
  (c10_writeback_order).2
    ⟨[.regular (.int64 1) .null "T" [],
      .schemaN (.str "T") (.str "T") "SchemaNode" [],
      .regular (.int64 2) .null "T" []]⟩
    [(some 0, .int64 9), (some 7, .int64 8)] [(some 2, .int64 6)] 1 (.int64 7) "p"
    (by decide) (by decide)

/-- C9 (amended): `process_equation` does return a named invalid-level-index
error, but `count_nodes_in_level` panics (`.expect`) on an out-of-range
level index instead of returning an error, and an unrecognized
conflict-policy token makes `update_or_create_node` panic when a matching
node exists instead of returning a configuration error. -/
theorem c9_error_surfacing :
    (∀ (g : DirGraph) (sel : CurrentSelection) (k : Nat),
      (sel.getLevelCount == 0) = false → sel.getLevel k = none →
      processEquation g sel "price" (some k) none =
        (.error ("Invalid level index: " ++ toString k ++
          ". Selection only has " ++ toString sel.getLevelCount ++
          " levels."), g)) ∧
    (∀ (g : OldGraph) (t : String) (u : Int) (title : Option String)
      (attrs : Option (List (String × AttributeValue))) (ch : String) (i : Nat),
      findStandardNode g t u = some i →
      ch ≠ "replace" → ch ≠ "update" → ch ≠ "skip" →
      updateOrCreateNode g t u title attrs ch =
        .panicked "Invalid conflict_handling value") ∧
    (∀ (sel : CurrentSelection) (k : Nat), sel.getLevel k = none →
      countNodesInLevel sel (some k) = .panicked "Level should exist") := by
  refine ⟨?_, ?_, ?_⟩
  · intro g sel k h0 hk
    have h1 : extractUnknownAggregateFunction "price" = none := by decide
    have h2 : parseExpression "price" = .ok (.varE "price") := by decide
    simp only [processEquation, h1, h2, h0, hk, Option.getD_some]
    simp
  · intro g t u title attrs ch i hfind h1 h2 h3
    simp only [updateOrCreateNode, hfind, beq_iff_eq, h1, h2, h3, if_false]
  · intro sel k hk
    simp [countNodesInLevel, hk]

/-- C9 witness: the three behaviours at concrete inputs. -/
theorem c9_error_surfacing_witness :
    (processEquation ⟨[]⟩ ⟨[⟨[]⟩]⟩ "price" (some 3) none =
      (.error "Invalid level index: 3. Selection only has 1 levels.", ⟨[]⟩)) ∧
    (updateOrCreateNode ⟨[.standard "T" 1 none []], []⟩ "T" 1 none none "smash" =
      .panicked "Invalid conflict_handling value") ∧
    (countNodesInLevel ⟨[⟨[]⟩]⟩ (some 3) = .panicked "Level should exist") := by
  obtain ⟨ha, hb, hc⟩ := c9_error_surfacing
  exact ⟨ha ⟨[]⟩ ⟨[⟨[]⟩]⟩ 3 (by decide) (by decide),
    hb ⟨[.standard "T" 1 none []], []⟩ "T" 1 none none "smash" 0 (by decide)
      (by decide) (by decide) (by decide),
    hc ⟨[⟨[]⟩]⟩ 3 (by decide)⟩

/-- C9 counterexample: at concrete inputs, `count_nodes_in_level` with an
out-of-range index and `update_or_create_node` with an invalid policy token
both end in a panic - the embedding's `panicked` result - not in any
returned error value. -/
theorem c9_counterexample :
    (countNodesInLevel ⟨[⟨[]⟩]⟩ (some 3) = .panicked "Level should exist") ∧
    (updateOrCreateNode ⟨[.standard "T" 1 none []], []⟩ "T" 1 none none "smash" =
      .panicked "Invalid conflict_handling value") ∧
    (∀ n : Nat, countNodesInLevel ⟨[⟨[]⟩]⟩ (some 3) ≠ .ok n) := by
  refine ⟨by decide, by decide, ?_⟩
  intro n
  rw [show countNodesInLevel ⟨[⟨[]⟩]⟩ (some 3) = .panicked "Level should exist" from by decide]
  exact fun h => RRes.noConfusion h


/-- C3 (amended): the `add_nodes.rs` ingestion entry point validates the
unique-id field, the title field and every requested attribute column
case-insensitively before touching the graph, returning an error that names
the missing column and lists the valid columns with the graph unchanged.
(The newer `maintain_graph::add_nodes` only checks the id column up front:
a missing title column is detected after the schema-node mutation and its
message lists no valid columns, see the counterexample.) -/
theorem c3_validation (chronoParse : String → String → Option Int)
    (g : OldGraph) (data : List PyRow) (columns : List String)
    (node_type unique_id_field : String) (node_title_field : Option String)
    (conflict_handling : Option String)
    (column_types : Option (List (String × String)))
    (attribute_columns : Option (List String)) :
    (((columns.map strLower).contains (strLower unique_id_field)) = false →
      addNodesOld chronoParse g data columns node_type unique_id_field
        node_title_field conflict_handling column_types attribute_columns =
        (.err ("Unique ID column \x27" ++ unique_id_field ++
          "\x27 not found in data. Valid columns are: [" ++
          joinComma columns ++ "]"), g)) ∧
    (∀ tf, node_title_field = some tf →
      ((columns.map strLower).contains (strLower unique_id_field)) = true →
      ((columns.map strLower).contains (strLower tf)) = false →
      addNodesOld chronoParse g data columns node_type unique_id_field
        node_title_field conflict_handling column_types attribute_columns =
        (.err ("Title column \x27" ++ tf ++
          "\x27 not found in data. Valid columns are: [" ++
          joinComma columns ++ "]"), g)) ∧
    (∀ acs, attribute_columns = some acs →
      ((columns.map strLower).contains (strLower unique_id_field)) = true →
      (node_title_field.all (fun tf =>
        (columns.map strLower).contains (strLower tf))) = true →
      (acs.filter (fun c =>
        ((columns.map strLower).contains (strLower c)) = false)) ≠ [] →
      addNodesOld chronoParse g data columns node_type unique_id_field
        node_title_field conflict_handling column_types attribute_columns =
        (.err (joinComma (acs.filter (fun c =>
            ((columns.map strLower).contains (strLower c)) = false)) ++
          " not found in data. Valid columns are: [" ++
          joinComma columns ++ "]"), g)) := by
  refine ⟨?_, ?_, ?_⟩
  · intro h
    simp only [addNodesOld, h]
    simp
  · intro tf htf h1 h2
    subst htf
    simp only [addNodesOld, h1, h2, Option.all_some, Option.getD_some]
    simp
  · intro acs hacs h1 h2 hinv
    subst hacs
    have hie : (acs.filter (fun c =>
        ((columns.map strLower).contains (strLower c)) = false)).isEmpty = false := by
      cases hx : (acs.filter (fun c =>
          ((columns.map strLower).contains (strLower c)) = false)).isEmpty
      · rfl
      · exact absurd (List.isEmpty_iff.mp hx) hinv
    simp only [addNodesOld, h1, h2, Option.getD_some, hie]
    simp

/-- C3 witness: the three validation failures at concrete inputs. -/
theorem c3_validation_witness :
    (addNodesOld (fun _ _ => none) ⟨[], []⟩ [] ["id", "name"] "T" "uid"
      none none none none =
      (.err "Unique ID column \x27uid\x27 not found in data. Valid columns are: [id, name]",
        ⟨[], []⟩)) ∧
    (addNodesOld (fun _ _ => none) ⟨[], []⟩ [] ["id", "name"] "T" "id"
      (some "title") none none none =
      (.err "Title column \x27title\x27 not found in data. Valid columns are: [id, name]",
        ⟨[], []⟩)) ∧
    (addNodesOld (fun _ _ => none) ⟨[], []⟩ [] ["id", "name"] "T" "id"
      none none none (some ["zap", "name"]) =
      (.err "zap not found in data. Valid columns are: [id, name]", ⟨[], []⟩)) := by
  obtain ⟨ha, hb, hc⟩ := c3_validation (fun _ _ => none) ⟨[], []⟩ [] ["id", "name"]
    "T" "uid" none none none none
  obtain ⟨_, hb2, _⟩ := c3_validation (fun _ _ => none) ⟨[], []⟩ [] ["id", "name"]
    "T" "id" (some "title") none none none
  obtain ⟨_, _, hc3⟩ := c3_validation (fun _ _ => none) ⟨[], []⟩ [] ["id", "name"]
    "T" "id" none none none (some ["zap", "name"])
  exact ⟨ha (by decide), hb2 "title" rfl (by decide) (by decide),
    hc3 ["zap", "name"] rfl (by decide) (by decide) (by decide)⟩

/-- C3 counterexample: `maintain_graph::add_nodes` with a valid id column
but a missing title column returns the error only after creating the
schema node - the graph is mutated before the validation error - and the
message does not list the valid columns. -/
theorem c3_counterexample :
    ((maintainAddNodes ⟨[]⟩ ⟨["id"], ["Int64"], [[.int64 1]]⟩
        "Person" "id" (some "name") none).1 =
      .error "Column \x27name\x27 not found") ∧
    ((maintainAddNodes ⟨[]⟩ ⟨["id"], ["Int64"], [[.int64 1]]⟩
        "Person" "id" (some "name") none).2.nodes.length = 1) ∧
    ((⟨[]⟩ : DirGraph).nodes.length = 0) := by
  exact ⟨by decide, by decide, by decide⟩

/-- C7 (amended): `process_equation` reports the targeted
missing-closing-parenthesis diagnostic for an unbalanced expression and the
unknown-aggregate diagnostic (with the supported list) for `name(arg)` with
an unknown name, both leaving the graph untouched - but the
unknown-aggregate check runs first, so an unbalanced input whose head looks
like an unknown function name gets the unknown-aggregate message instead
(see the counterexample). -/
theorem c7_parse_diagnostics :
    (∀ (g : DirGraph) (sel : CurrentSelection) (li : Option Nat)
      (sa : Option String),
      processEquation g sel "sum(amount" li sa =
        (.error "Missing closing parenthesis in expression.", g)) ∧
    (∀ (g : DirGraph) (sel : CurrentSelection) (li : Option Nat)
      (sa : Option String),
      processEquation g sel "foo(amount)" li sa =
        (.error ("Unknown aggregate function \x27foo\x27. Supported functions are: " ++
          joinComma AggregateType.getSupportedNames), g)) := by
  constructor
  · intro g sel li sa
    simp only [processEquation,
      show extractUnknownAggregateFunction "sum(amount" = none from by decide,
      show parseExpression "sum(amount" = .error "expected closing parenthesis"
        from by decide,
      show ("sum(amount" == "") = false from by decide,
      show containsChar "sum(amount" '(' = true from by decide,
      show containsChar "sum(amount" ')' = false from by decide]
    simp
  · intro g sel li sa
    simp only [processEquation,
      show extractUnknownAggregateFunction "foo(amount)" = some "foo" from by decide]
    rfl

/-- C7 counterexample: `foo(amount` has an opening parenthesis with no
closing one, yet is rejected with the unknown-aggregate message, not the
missing-closing-parenthesis one. -/
theorem c7_counterexample :
    (processEquation ⟨[]⟩ ⟨[]⟩ "foo(amount" none none =
      (.error ("Unknown aggregate function \x27foo\x27. Supported functions are: " ++
        joinComma AggregateType.getSupportedNames), ⟨[]⟩)) ∧
    (containsChar "foo(amount" '(' = true) ∧
    (containsChar "foo(amount" ')' = false) ∧
    ("Unknown aggregate function \x27foo\x27. Supported functions are: " ++
      joinComma AggregateType.getSupportedNames ≠
      "Missing closing parenthesis in expression.") := by
  exact ⟨by decide, by decide, by decide, by decide⟩


theorem matchesFilter_iff (nt : String) (uid : Int) (title : Option String)
    (attrs : List (String × AttributeValue)) (k v : String) :
    matchesFilter nt uid title attrs k v = true ↔
    claimKeyMatches nt uid title attrs k v := by
  by_cases h1 : k = "type" ∨ k = "node_type"
  · have hb : (k == "type" || k == "node_type") = true := by
      rcases h1 with h | h <;> simp [h]
    simp [matchesFilter, claimKeyMatches, hb, h1]
  · have hb : (k == "type" || k == "node_type") = false := by
      simp only [Bool.or_eq_false_iff, beq_eq_false_iff_ne, ne_eq]
      exact ⟨fun hc => h1 (Or.inl hc), fun hc => h1 (Or.inr hc)⟩
    by_cases h2 : k = "title"
    · simp only [matchesFilter, claimKeyMatches, hb, h1, h2, if_false, if_true,
        Bool.false_eq_true, eq_self_iff_true]
      cases title <;> simp
    · by_cases h3 : k = "unique_id"
      · simp [matchesFilter, claimKeyMatches, hb, h1, h2, h3]
      · simp only [matchesFilter, claimKeyMatches, hb, h1, h2, h3, if_false,
          Bool.false_eq_true]
        cases ha : alGet attrs k with
        | none => simp [h2, h3]
        | some a => cases a <;> simp [AttributeValue.toText, h2, h3]

/-- C5: node filtering defaults its candidate set to all node indices; an
index is in the result iff it is a candidate holding a regular node on
which every predicate key matches per the claim's reading
(`claimKeyMatches`); schema nodes are never returned. -/
theorem c5_filter_semantics (g : OldGraph) (indices : Option (List Nat))
    (filters : List (String × String)) :
    (∀ idx, idx ∈ filterNodes g indices filters ↔
      ((match indices with
        | some l => idx ∈ l
        | none => idx < g.nodes.length) ∧
      ∃ nt uid title attrs,
        g.nodeAt idx = some (.standard nt uid title attrs) ∧
        ∀ p ∈ filters, claimKeyMatches nt uid title attrs p.1 p.2)) ∧
    (∀ idx ∈ filterNodes g indices filters,
      ∀ dt n a c, g.nodeAt idx ≠ some (.dataType dt n a c)) := by
  have hmem : ∀ idx, idx ∈ filterNodes g indices filters ↔
      ((match indices with
        | some l => idx ∈ l
        | none => idx < g.nodes.length) ∧
      ∃ nt uid title attrs,
        g.nodeAt idx = some (.standard nt uid title attrs) ∧
        ∀ p ∈ filters, claimKeyMatches nt uid title attrs p.1 p.2) := by
    intro idx
    simp only [filterNodes]
    rw [List.mem_filter]
    constructor
    · rintro ⟨hc, hp⟩
      constructor
      · cases indices with
        | some l => simpa using hc
        | none => simpa [List.mem_range] using hc
      · cases hn : g.nodeAt idx with
        | none => rw [hn] at hp; simp at hp
        | some node =>
          cases node with
          | dataType dt n a c => rw [hn] at hp; simp at hp
          | standard nt uid title attrs =>
            refine ⟨nt, uid, title, attrs, rfl, ?_⟩
            rw [hn] at hp
            simp only [List.all_eq_true] at hp
            intro p hmemp
            exact (matchesFilter_iff nt uid title attrs p.1 p.2).mp (hp p hmemp)
    · rintro ⟨hc, nt, uid, title, attrs, hn, hall⟩
      constructor
      · cases indices with
        | some l => simpa using hc
        | none => simpa [List.mem_range] using hc
      · rw [hn]
        simp only [List.all_eq_true]
        intro p hmemp
        exact (matchesFilter_iff nt uid title attrs p.1 p.2).mpr (hall p hmemp)
  refine ⟨hmem, ?_⟩
  intro idx hidx dt n a c hc
  obtain ⟨-, nt, uid, title, attrs, hn, -⟩ := (hmem idx).mp hidx
  rw [hn] at hc
  exact Node.noConfusion (Option.some.inj hc)

/-- C5 witness: a concrete regular node matching a title predicate is
returned through the theorem. -/
theorem c5_filter_semantics_witness :
    0 ∈ filterNodes ⟨[.standard "Person" 1 (some "Alice") []], []⟩ none
      [("title", "Alice")] :=
  ((c5_filter_semantics ⟨[.standard "Person" 1 (some "Alice") []], []⟩ none
      [("title", "Alice")]).1 0).mpr
    ⟨by decide, "Person", 1, some "Alice", [], rfl, by
      intro p hp
      rw [List.mem_singleton.mp hp]
      simp [claimKeyMatches]⟩


theorem objects_of_child_nodes (g : DirGraph) (children : List Nat) :
    (children.filterMap (fun ni =>
      (g.getNode ni).map (fun n => (ni, convertNodeToObject n)))).map Prod.snd =
    children.filterMap (fun ni => (g.getNode ni).map convertNodeToObject) := by
  rw [List.map_filterMap]
  congr 1
  funext ni
  cases g.getNode ni <;> simp

/-- C8: with an aggregate in the tree, evaluation produces exactly one
result per parent/child pair of the effective level - a group with no
resolvable children carries the "No valid nodes found" error, any other
group carries the evaluator's value over exactly that group's resolvable
children or the evaluator's error, so one group's failure never aborts the
others; without an aggregate, one result per node of the effective level,
the per-node evaluator failure captured in that result. -/
theorem c8_aggregate_groups (g : DirGraph) (sel : CurrentSelection)
    (expr : Expr) (li : Option Nat) :
    (hasAggregation expr = true →
      (evaluateEquation g sel expr li).length =
        (getParentChildPairs sel li).length ∧
      ∀ i pair, (getParentChildPairs sel li).get? i = some pair →
        (evaluateEquation g sel expr li).get? i = some (
          if (pair.children.filterMap (fun ni =>
              (g.getNode ni).map convertNodeToObject)).isEmpty then
            ⟨none, pair.parent, pair.parent.bind (parentTitleOf g), .null,
              some "No valid nodes found"⟩
          else
            match evaluatorEvaluate expr (pair.children.filterMap (fun ni =>
                (g.getNode ni).map convertNodeToObject)) with
            | .ok v =>
              ⟨none, pair.parent, pair.parent.bind (parentTitleOf g), v, none⟩
            | .error e =>
              ⟨none, pair.parent, pair.parent.bind (parentTitleOf g), .null,
                some e⟩)) ∧
    (hasAggregation expr = false →
      ∀ level, sel.getLevel (li.getD (sel.getLevelCount - 1)) = some level →
      (evaluateEquation g sel expr li).length = level.getAllNodes.length ∧
      ∀ i ni, level.getAllNodes.get? i = some ni →
        (evaluateEquation g sel expr li).get? i = some (
          match g.getNode ni with
          | some node =>
            (match evaluatorEvaluate expr [convertNodeToObject node] with
            | .ok v =>
              ⟨some ni, none, (node.getField "title").bind Value.asStringV,
                v, none⟩
            | .error e =>
              ⟨some ni, none, (node.getField "title").bind Value.asStringV,
                .null, some e⟩)
          | none => ⟨some ni, none, none, .null, some "Node not found"⟩)) := by
  constructor
  · intro hagg
    constructor
    · simp [evaluateEquation, hagg]
    · intro i pair hpair
      have hmap := objects_of_child_nodes g pair.children
      have hemp : ∀ (l : List (Nat × List (String × Value))),
          (l.map Prod.snd).isEmpty = l.isEmpty := by
        intro l; cases l <;> rfl
      simp only [evaluateEquation, hagg, if_true, List.get?_map, hpair,
        Option.map_some, Option.map_some']
      congr 1
      rw [← hmap,
        hemp (pair.children.filterMap (fun ni =>
          (g.getNode ni).map (fun n => (ni, convertNodeToObject n))))]
  · intro hagg level hlevel
    constructor
    · simp [evaluateEquation, hagg, hlevel]
    · intro i ni hni
      simp only [evaluateEquation, hagg, Bool.false_eq_true, if_false, hlevel,
        List.get?_map, hni, Option.map_some]
      rfl

/-- C8 witness: `sum(amount)` over two parent groups, children holding
10 and 20 in the first and none in the second: the first result carries 30
and no error, the second the explicit "No valid nodes found" error. -/
theorem c8_aggregate_groups_witness :
    ((evaluateEquation
      ⟨[.regular (.int64 1) (.str "a") "T" [("amount", .int64 10)],
        .regular (.int64 2) (.str "b") "T" [("amount", .int64 20)],
        .regular (.int64 3) (.str "p") "P" [],
        .regular (.int64 4) (.str "q") "P" []]⟩
      ⟨[⟨[⟨some 2, [0, 1]⟩, ⟨some 3, []⟩]⟩]⟩
      (.agg .sum (.varE "amount")) none).get? 0 =
      some ⟨none, some 2, some "p", .int64 30, none⟩) ∧
    ((evaluateEquation
      ⟨[.regular (.int64 1) (.str "a") "T" [("amount", .int64 10)],
        .regular (.int64 2) (.str "b") "T" [("amount", .int64 20)],
        .regular (.int64 3) (.str "p") "P" [],
        .regular (.int64 4) (.str "q") "P" []]⟩
      ⟨[⟨[⟨some 2, [0, 1]⟩, ⟨some 3, []⟩]⟩]⟩
      (.agg .sum (.varE "amount")) none).get? 1 =
      some ⟨none, some 3, some "q", .null, some "No valid nodes found"⟩) := by
  have h := (c8_aggregate_groups
    ⟨[.regular (.int64 1) (.str "a") "T" [("amount", .int64 10)],
      .regular (.int64 2) (.str "b") "T" [("amount", .int64 20)],
      .regular (.int64 3) (.str "p") "P" [],
      .regular (.int64 4) (.str "q") "P" []]⟩
    ⟨[⟨[⟨some 2, [0, 1]⟩, ⟨some 3, []⟩]⟩]⟩
    (.agg .sum (.varE "amount")) none).1 rfl
  constructor
  · rw [h.2 0 ⟨some 2, [0, 1]⟩ (by decide)]
    decide
  · rw [h.2 1 ⟨some 3, []⟩ (by decide)]
    decide


theorem stableInsert_perm {α : Type} (le : α → α → Bool) (a : α) (l : List α) :
    (stableInsert le a l).Perm (a :: l) := by
  induction l with
  | nil => simp [stableInsert]
  | cons b t ih =>
    simp only [stableInsert]
    by_cases h : le a b = true
    · simp [h]
    · simp only [h, if_false]
      exact ((ih.cons b).trans (List.Perm.swap a b t))

theorem stableSort_perm {α : Type} (le : α → α → Bool) (l : List α) :
    (stableSort le l).Perm l := by
  induction l with
  | nil => simp [stableSort]
  | cons a t ih =>
    simp only [stableSort]
    exact (stableInsert_perm le a (stableSort le t)).trans (ih.cons a)

theorem stableInsert_skip {α : Type} (le : α → α → Bool) (a : α) :
    ∀ (p m : List α), (∀ x ∈ p, le a x = false) →
    stableInsert le a (p ++ m) = p ++ stableInsert le a m := by
  intro p
  induction p with
  | nil => intro m _; simp
  | cons c t ih =>
    intro m hp
    have hc : le a c = false := hp c (by simp)
    simp only [List.cons_append, stableInsert, hc, Bool.false_eq_true, if_false]
    exact congrArg (List.cons c) (ih m (fun x hx => hp x (by simp [hx])))

theorem stableInsert_within {α : Type} (le : α → α → Bool) (a : α) :
    ∀ (p m : List α), (∀ x ∈ m, le a x = true) →
    ∃ p1 p2, p = p1 ++ p2 ∧
      stableInsert le a (p ++ m) = p1 ++ a :: (p2 ++ m) := by
  intro p
  induction p with
  | nil =>
    intro m hm
    cases m with
    | nil => exact ⟨[], [], rfl, rfl⟩
    | cons b t =>
      refine ⟨[], [], rfl, ?_⟩
      simp [stableInsert, hm b (by simp)]
  | cons c t ih =>
    intro m hm
    by_cases h : le a c = true
    · exact ⟨[], c :: t, rfl, by simp [stableInsert, h]⟩
    · obtain ⟨p1, p2, hsplit, heq⟩ := ih m hm
      have hc : le a c = false := by
        cases hle : le a c with
        | true => exact absurd hle h
        | false => rfl
      refine ⟨c :: p1, p2, by simp [hsplit], ?_⟩
      simp only [List.cons_append, stableInsert, hc, Bool.false_eq_true, if_false]
      exact congrArg (List.cons c) heq

theorem leKey_none_some (i j : Nat) (v : AttributeValue) :
    leKey (i, none) (j, some v) = false := rfl

theorem leKey_none_none (i j : Nat) :
    leKey (i, (none : Option AttributeValue)) (j, none) = true := rfl

theorem leKey_some_none (i j : Nat) (v : AttributeValue) :
    leKey (i, some v) (j, none) = true := rfl

theorem stableSort_nones_suffix (l : List (Nat × Option AttributeValue)) :
    ∃ p m, stableSort leKey l = p ++ m ∧
      (∀ x ∈ p, x.2.isSome = true) ∧ (∀ x ∈ m, x.2 = none) := by
  induction l with
  | nil => exact ⟨[], [], rfl, by simp, by simp⟩
  | cons a t ih =>
    obtain ⟨p, m, heq, hp, hm⟩ := ih
    simp only [stableSort, heq]
    obtain ⟨i, av⟩ := a
    cases hav : av with
    | none =>
      have hskip : ∀ x ∈ p, leKey (i, none) x = false := by
        intro x hx
        obtain ⟨j, xv⟩ := x
        cases hxv : xv with
        | none => have := hp (j, xv) hx; rw [hxv] at this; simp at this
        | some v => exact leKey_none_some i j v
      rw [stableInsert_skip leKey (i, none) p m hskip]
      have hins : stableInsert leKey (i, none) m = (i, none) :: m := by
        cases m with
        | nil => rfl
        | cons b t2 =>
          obtain ⟨j, bv⟩ := b
          have hbv : bv = none := hm (j, bv) (by simp)
          subst hbv
          simp [stableInsert, leKey_none_none]
      rw [hins]
      exact ⟨p, (i, none) :: m, rfl, hp, by
        intro x hx
        rcases List.mem_cons.mp hx with h | h
        · rw [h]
        · exact hm x h⟩
    | some v =>
      have hall : ∀ x ∈ m, leKey (i, some v) x = true := by
        intro x hx
        obtain ⟨j, xv⟩ := x
        have : xv = none := hm (j, xv) hx
        subst this
        exact leKey_some_none i j v
      obtain ⟨p1, p2, hsplit, hins⟩ := stableInsert_within leKey (i, some v) p m hall
      rw [hins]
      refine ⟨p1 ++ (i, some v) :: p2, m, by simp, ?_, hm⟩
      intro x hx
      rcases List.mem_append.mp hx with h | h
      · exact hp x (by rw [hsplit]; exact List.mem_append.mpr (Or.inl h))
      · rcases List.mem_cons.mp h with h2 | h2
        · rw [h2]; rfl
        · exact hp x (by rw [hsplit]; exact List.mem_append.mpr (Or.inr h2))

theorem stableSort_cons_min {α : Type} (le : α → α → Bool) :
    ∀ (l : List α) (x : α) (xs : List α), stableSort le l = x :: xs →
    (∀ a ∈ l, ∀ b ∈ l, ∀ c ∈ l, le a b = true → le b c = true → le a c = true) →
    (∀ a ∈ l, ∀ b ∈ l, le a b = true ∨ le b a = true) →
    x ∈ l ∧ ∀ y ∈ l, le x y = true := by
  intro l
  induction l with
  | nil => intro x xs h; simp [stableSort] at h
  | cons a t ih =>
    intro x xs hsort htrans htot
    have hmem : x ∈ a :: t :=
      (stableSort_perm le (a :: t)).mem_iff.mp (by rw [hsort]; simp)
    refine ⟨hmem, ?_⟩
    simp only [stableSort] at hsort
    cases hs : stableSort le t with
    | nil =>
      have ht : t = [] := by
        have hlen := (stableSort_perm le t).length_eq
        rw [hs] at hlen
        exact List.length_eq_zero.mp hlen.symm
      rw [hs] at hsort
      simp only [stableInsert] at hsort
      have hax : a = x := (List.cons.inj hsort).1
      subst ht
      intro y hy
      have hya : y = a := by simpa using hy
      rw [← hax, hya]
      rcases htot a (by simp) a (by simp) with h | h <;> exact h
    | cons b bs =>
      have hbmem : b ∈ t :=
        (stableSort_perm le t).mem_iff.mp (by rw [hs]; simp)
      have hbmin := ih b bs hs
        (fun a2 ha2 b2 hb2 c2 hc2 =>
          htrans a2 (by simp [ha2]) b2 (by simp [hb2]) c2 (by simp [hc2]))
        (fun a2 ha2 b2 hb2 => htot a2 (by simp [ha2]) b2 (by simp [hb2]))
      rw [hs] at hsort
      simp only [stableInsert] at hsort
      by_cases hab : le a b = true
      · rw [if_pos hab] at hsort
        have hax : a = x := (List.cons.inj hsort).1
        intro y hy
        rw [← hax]
        rcases List.mem_cons.mp hy with h2 | h2
        · rw [h2]
          rcases htot a (by simp) a (by simp) with h | h <;> exact h
        · exact htrans a (by simp) b (by simp [hbmem]) y (by simp [h2]) hab
            (hbmin.2 y h2)
      · rw [if_neg hab] at hsort
        have hbx : b = x := (List.cons.inj hsort).1
        intro y hy
        rw [← hbx]
        rcases List.mem_cons.mp hy with h2 | h2
        · rw [h2]
          rcases htot a (by simp) b (by simp [hbmem]) with h | h
          · exact absurd h hab
          · exact h
        · exact hbmin.2 y h2

/-- C6: with a sort attribute, traversal stably sorts the collected
endpoints by the attribute key with all key-missing endpoints after all
key-carrying ones when ascending, the whole order is reversed when
`ascending = false`, the result is truncated to the limit, and - when the
keys are comparable (transitive/total on the collected list) - ascending
with `limit = 1` returns exactly one endpoint whose key is smallest among
the matches. -/
theorem c6_traverse_sorted (g : OldGraph) (indices : List Nat) (rel : String)
    (incoming : Bool) (attr : String) :
    (traverseRelationships g indices rel incoming (some attr) (some false) none =
      (traverseRelationships g indices rel incoming (some attr) (some true) none).reverse) ∧
    (∀ (asc : Option Bool) (k : Nat),
      traverseRelationships g indices rel incoming (some attr) asc (some k) =
        (traverseRelationships g indices rel incoming (some attr) asc none).take k) ∧
    (∃ p m, stableSort leKey (collectConnected g indices rel incoming (some attr)) =
        p ++ m ∧
      (∀ x ∈ p, x.2.isSome = true) ∧ (∀ x ∈ m, x.2 = none) ∧
      traverseRelationships g indices rel incoming (some attr) (some true) none =
        (p ++ m).map Prod.fst) ∧
    (collectConnected g indices rel incoming (some attr) ≠ [] →
      (∀ a ∈ collectConnected g indices rel incoming (some attr),
        ∀ b ∈ collectConnected g indices rel incoming (some attr),
        ∀ c ∈ collectConnected g indices rel incoming (some attr),
        leKey a b = true → leKey b c = true → leKey a c = true) →
      (∀ a ∈ collectConnected g indices rel incoming (some attr),
        ∀ b ∈ collectConnected g indices rel incoming (some attr),
        leKey a b = true ∨ leKey b a = true) →
      ∃ w, traverseRelationships g indices rel incoming (some attr)
          (some true) (some 1) = [w.1] ∧
        w ∈ collectConnected g indices rel incoming (some attr) ∧
        ∀ y ∈ collectConnected g indices rel incoming (some attr),
          leKey w y = true) := by
  refine ⟨?_, ?_, ?_, ?_⟩
  · simp [traverseRelationships, applyLimit, List.map_reverse]
  · intro asc k
    cases asc with
    | none => simp [traverseRelationships, applyLimit]
    | some b => cases b <;> simp [traverseRelationships, applyLimit]
  · obtain ⟨p, m, heq, hp, hm⟩ :=
      stableSort_nones_suffix (collectConnected g indices rel incoming (some attr))
    exact ⟨p, m, heq, hp, hm, by simp [traverseRelationships, applyLimit, heq]⟩
  · intro hne htrans htot
    cases hs : stableSort leKey (collectConnected g indices rel incoming (some attr)) with
    | nil =>
      exfalso
      have := (stableSort_perm leKey
        (collectConnected g indices rel incoming (some attr))).length_eq
      rw [hs] at this
      exact hne (List.length_eq_zero.mp this.symm)
    | cons x xs =>
      obtain ⟨hxmem, hxmin⟩ := stableSort_cons_min leKey
        (collectConnected g indices rel incoming (some attr)) x xs hs htrans htot
      refine ⟨x, ?_, hxmem, hxmin⟩
      simp [traverseRelationships, applyLimit, hs]

/-- C6 witness: outgoing `knows` edges sorted ascending by `since` with
`limit = 1` return exactly the neighbour with the smallest `since`. -/
theorem c6_traverse_sorted_witness :
    ∃ w, traverseRelationships
        ⟨[.standard "P" 1 none [],
          .standard "P" 2 none [("since", .int 5)],
          .standard "P" 3 none [("since", .int 2)],
          .standard "P" 4 none []],
         [⟨0, 1, ⟨"knows", []⟩⟩, ⟨0, 2, ⟨"knows", []⟩⟩,
          ⟨0, 3, ⟨"knows", []⟩⟩, ⟨0, 2, ⟨"likes", []⟩⟩]⟩
        [0] "knows" false (some "since") (some true) (some 1) = [w.1] ∧
      w ∈ collectConnected
        ⟨[.standard "P" 1 none [],
          .standard "P" 2 none [("since", .int 5)],
          .standard "P" 3 none [("since", .int 2)],
          .standard "P" 4 none []],
         [⟨0, 1, ⟨"knows", []⟩⟩, ⟨0, 2, ⟨"knows", []⟩⟩,
          ⟨0, 3, ⟨"knows", []⟩⟩, ⟨0, 2, ⟨"likes", []⟩⟩]⟩
        [0] "knows" false (some "since") ∧
      ∀ y ∈ collectConnected
        ⟨[.standard "P" 1 none [],
          .standard "P" 2 none [("since", .int 5)],
          .standard "P" 3 none [("since", .int 2)],
          .standard "P" 4 none []],
         [⟨0, 1, ⟨"knows", []⟩⟩, ⟨0, 2, ⟨"knows", []⟩⟩,
          ⟨0, 3, ⟨"knows", []⟩⟩, ⟨0, 2, ⟨"likes", []⟩⟩]⟩
        [0] "knows" false (some "since"), leKey w y = true :=
  (c6_traverse_sorted
    ⟨[.standard "P" 1 none [],
      .standard "P" 2 none [("since", .int 5)],
      .standard "P" 3 none [("since", .int 2)],
      .standard "P" 4 none []],
     [⟨0, 1, ⟨"knows", []⟩⟩, ⟨0, 2, ⟨"knows", []⟩⟩,
      ⟨0, 3, ⟨"knows", []⟩⟩, ⟨0, 2, ⟨"likes", []⟩⟩]⟩
    [0] "knows" false "since").2.2.2 (by decide) (by decide) (by decide)


theorem scanCells_proj (c1 c2 : String → String → Option Int)
    (s1 s2 f1 f2 : List (String × String)) (d1 d2 : String)
    (uidf : String) (tf : Option String) (ac : Option (List String))
    (row : List PyValue) :
    ∀ (cols : List (Nat × String))
      (a1 a2 : List (String × AttributeValue)) (uid : Option Int)
      (t1 t2 : Option String),
    (scanCells c1 s1 f1 d1 uidf tf ac row cols a1 uid t1).map (fun r => r.2.1) =
    (scanCells c2 s2 f2 d2 uidf tf ac row cols a2 uid t2).map (fun r => r.2.1) := by
  intro cols
  induction cols with
  | nil => intro a1 a2 uid t1 t2; rfl
  | cons p rest ih =>
    intro a1 a2 uid t1 t2
    obtain ⟨ci, cn⟩ := p
    simp only [scanCells]
    cases row.get? ci with
    | none => rfl
    | some item =>
      simp only
      by_cases h1 : (cn == uidf) = true
      · simp only [h1, if_true]
        cases parseValueToI32 item with
        | none => rfl
        | some v => exact ih a1 a2 (some v) t1 t2
      · simp only [h1]
        by_cases h2 : (tf.any (fun t => cn == t)) = true
        · simp only [h2, if_true, Bool.false_eq_true, if_false]
          exact ih a1 a2 uid (extractStr item) (extractStr item)
        · simp only [h2, Bool.false_eq_true, if_false]
          by_cases h3 : ((ac.all (fun acs =>
              acs.any (fun c => strLower c == strLower cn))) = false)
          · simp only [h3, if_true]
            exact ih a1 a2 uid t1 t2
          · simp only [h3, if_false]
            exact ih _ _ uid t1 t2

theorem skel_get (g : OldGraph) (i : Nat) :
    (skel g).get? i = (g.nodeAt i).map Node.key := by
  simp [skel, OldGraph.nodeAt, List.get?_map]

theorem findStandardNode_eq_findKeyStd (g : OldGraph) (t : String) (u : Int) :
    findStandardNode g t u = findKeyStd (skel g) t u := by
  have hlen : (skel g).length = g.nodes.length := by simp [skel]
  simp only [findStandardNode, findKeyStd, hlen]
  congr 1
  funext i
  rw [skel_get]
  cases g.nodeAt i with
  | none => rfl
  | some n => cases n <;> rfl

theorem findDataTypeNode_eq_findKeyDT (g : OldGraph) (dt n : String) :
    findDataTypeNode g dt n = findKeyDT (skel g) dt n := by
  have hlen : (skel g).length = g.nodes.length := by simp [skel]
  simp only [findDataTypeNode, findKeyDT, hlen]
  congr 1
  funext i
  rw [skel_get]
  cases g.nodeAt i with
  | none => rfl
  | some nd => cases nd <;> rfl

theorem set_get_eq {α : Type} : ∀ (l : List α) (i : Nat) (k : α),
    l.get? i = some k → l.set i k = l := by
  intro l
  induction l with
  | nil => intro i k h; simp at h
  | cons a t ih =>
    intro i k h
    cases i with
    | zero => simp at h; simp [List.set, h]
    | succ j =>
      simp only [List.get?_cons_succ] at h
      simp [List.set, ih j k h]

theorem skel_setNode (g : OldGraph) (i : Nat) (n : Node) :
    skel (g.setNode i n) = (skel g).set i n.key := by
  simp [skel, OldGraph.setNode, List.map_set]

theorem skel_addNode (g : OldGraph) (n : Node) :
    skel (g.addNode n).1 = skel g ++ [n.key] := by
  simp [skel, OldGraph.addNode]

theorem findKeyStd_found (ks : List NodeKey) (t : String) (u : Int) (i : Nat)
    (h : findKeyStd ks t u = some i) : ks.get? i = some (.std t u) := by
  have hp := List.find?_some h
  have hmem := List.mem_range.mp (List.find?_mem h)
  cases hk : ks.get? i with
  | none =>
    rw [hk] at hp
    simp [Option.elim] at hp
  | some k =>
    rw [hk] at hp
    simp only [Option.elim] at hp
    cases k with
    | dtk a b => simp [keyMatchesStd] at hp
    | std nt uid =>
      simp only [keyMatchesStd, Bool.and_eq_true, beq_iff_eq] at hp
      rw [hp.1, hp.2]

theorem findKeyDT_found (ks : List NodeKey) (dt n : String) (i : Nat)
    (h : findKeyDT ks dt n = some i) : ks.get? i = some (.dtk dt n) := by
  have hp := List.find?_some h
  cases hk : ks.get? i with
  | none =>
    rw [hk] at hp
    simp [Option.elim] at hp
  | some k =>
    rw [hk] at hp
    simp only [Option.elim] at hp
    cases k with
    | std a b => simp [keyMatchesDT] at hp
    | dtk dt0 n0 =>
      simp only [keyMatchesDT, Bool.and_eq_true, beq_iff_eq] at hp
      rw [hp.1, hp.2]


theorem updateOrCreateNode_skel (g : OldGraph) (t : String) (u : Int)
    (title : Option String) (attrs : Option (List (String × AttributeValue)))
    (ch : String) (hch : ch = "replace" ∨ ch = "update" ∨ ch = "skip") :
    ∃ g1 i, updateOrCreateNode g t u title attrs ch = .ok (g1, i) ∧
      skel g1 = pushStd (skel g) t u := by
  cases hfind : findKeyStd (skel g) t u with
  | none =>
    refine ⟨(g.addNode (Node.newStandard t u attrs title)).1,
      (g.addNode (Node.newStandard t u attrs title)).2, ?_, ?_⟩
    · simp [updateOrCreateNode, findStandardNode_eq_findKeyStd, hfind]
    · rw [skel_addNode]
      simp [pushStd, hfind, Node.newStandard, Node.key]
  | some i =>
    have hkey : (skel g).get? i = some (.std t u) := findKeyStd_found _ t u i hfind
    have hset : (skel g).set i (.std t u) = skel g := set_get_eq (skel g) i _ hkey
    have hpush : pushStd (skel g) t u = skel g := by simp [pushStd, hfind]
    have hfind2 : findStandardNode g t u = some i := by
      rw [findStandardNode_eq_findKeyStd, hfind]
    have hnode : ∃ tt old, g.nodeAt i = some (.standard t u tt old) := by
      rw [skel_get] at hkey
      cases hn : g.nodeAt i with
      | none => rw [hn] at hkey; simp at hkey
      | some nd =>
        rw [hn] at hkey
        cases nd with
        | dataType a b c d => simp [Node.key] at hkey
        | standard nt uid tt old =>
          have hkey2 : (NodeKey.std nt uid : NodeKey) = .std t u := by
            simpa [Node.key] using hkey
          refine ⟨tt, old, ?_⟩
          rw [(NodeKey.std.inj hkey2).1, (NodeKey.std.inj hkey2).2]
    obtain ⟨tt, old, hn⟩ := hnode
    rcases hch with hc | hc | hc
    · subst hc
      refine ⟨g.setNode i (Node.newStandard t u attrs title), i, ?_, ?_⟩
      · simp [updateOrCreateNode, hfind2]
      · rw [skel_setNode, hpush]
        exact hset
    · subst hc
      cases attrs with
      | none =>
        refine ⟨g, i, ?_, by rw [hpush]⟩
        simp [updateOrCreateNode, hfind2]
      | some al =>
        refine ⟨g.setNode i (.standard t u tt (alExtend old al)), i, ?_, ?_⟩
        · simp [updateOrCreateNode, hfind2, hn]
        · rw [skel_setNode, hpush]
          exact hset
    · subst hc
      refine ⟨g, i, ?_, by rw [hpush]⟩
      simp [updateOrCreateNode, hfind2]

theorem updateOrRetrieveSchema_skel (g : OldGraph) (dt n : String)
    (m : List (String × String)) :
    ∃ res g1, updateOrRetrieveSchema g dt n (some m) = (.ok res, g1) ∧
      skel g1 = pushDT (skel g) dt n := by
  cases hfind : findKeyDT (skel g) dt n with
  | none =>
    have hfind2 : findDataTypeNode g dt n = none := by
      rw [findDataTypeNode_eq_findKeyDT, hfind]
    refine ⟨m, (g.addNode (Node.newDataType dt n m none)).1, ?_, ?_⟩
    · simp [updateOrRetrieveSchema, hfind2, Node.newDataType]
    · rw [skel_addNode]
      simp [pushDT, hfind, Node.newDataType, Node.key]
  | some i =>
    have hkey : (skel g).get? i = some (.dtk dt n) := findKeyDT_found _ dt n i hfind
    have hset : (skel g).set i (.dtk dt n) = skel g := set_get_eq (skel g) i _ hkey
    have hfind2 : findDataTypeNode g dt n = some i := by
      rw [findDataTypeNode_eq_findKeyDT, hfind]
    have hpush : pushDT (skel g) dt n = skel g := by simp [pushDT, hfind]
    have hnode : ∃ al cs, g.nodeAt i = some (.dataType dt n al cs) := by
      rw [skel_get] at hkey
      cases hn : g.nodeAt i with
      | none => rw [hn] at hkey; simp at hkey
      | some nd =>
        rw [hn] at hkey
        cases nd with
        | standard a b c d => simp [Node.key] at hkey
        | dataType dt0 n0 al cs =>
          have hkey2 : (NodeKey.dtk dt0 n0 : NodeKey) = .dtk dt n := by
            simpa [Node.key] using hkey
          refine ⟨al, cs, ?_⟩
          rw [(NodeKey.dtk.inj hkey2).1, (NodeKey.dtk.inj hkey2).2]
    obtain ⟨al, cs, hn⟩ := hnode
    refine ⟨alExtend al m,
      g.setNode i (Node.newDataType dt n (alExtend al m) cs), ?_, ?_⟩
    · simp [updateOrRetrieveSchema, hfind2, hn]
    · rw [skel_setNode, hpush]
      exact hset

theorem processRowOld_skel (c : String → String → Option Int)
    (s f : List (String × String)) (d : String) (columns : List String)
    (nt uidf : String) (tf : Option String) (ac : Option (List String))
    (ch : String) (hch : ch = "replace" ∨ ch = "update" ∨ ch = "skip")
    (g : OldGraph) (r : PyRow) :
    ∃ g1, processRowOld c s f d columns nt uidf tf ac ch g r = .ok g1 ∧
      skel g1 = rowStep (skel g) nt (rowId columns uidf tf ac r) := by
  cases r with
  | none => exact ⟨g, rfl, rfl⟩
  | some cells =>
    have hproj := scanCells_proj c (fun _ _ => none) s [] f [] d "" uidf tf ac
      cells columns.enum [] [] none none none
    simp only [processRowOld]
    cases hsc : scanCells c s f d uidf tf ac cells columns.enum [] none none with
    | none =>
      rw [hsc] at hproj
      have hcanon : rowId columns uidf tf ac (some cells) = none := by
        simp only [rowId]
        cases hc2 : scanCells (fun _ _ => none) [] [] "" uidf tf ac cells
            columns.enum [] none none with
        | none => rfl
        | some v => rw [hc2] at hproj; simp at hproj
      rw [hcanon]
      exact ⟨g, rfl, rfl⟩
    | some v =>
      obtain ⟨al, uid, titl⟩ := v
      rw [hsc] at hproj
      have hcanon : rowId columns uidf tf ac (some cells) = uid := by
        simp only [rowId]
        cases hc2 : scanCells (fun _ _ => none) [] [] "" uidf tf ac cells
            columns.enum [] none none with
        | none => rw [hc2] at hproj; simp at hproj
        | some w =>
          rw [hc2] at hproj
          have h3 : (some uid : Option (Option Int)) = some w.2.1 := hproj
          show w.2.1 = uid
          exact (Option.some.inj h3).symm
      rw [hcanon]
      cases uid with
      | none => exact ⟨g, rfl, rfl⟩
      | some u =>
        obtain ⟨g1, i, hupd, hskel⟩ :=
          updateOrCreateNode_skel g nt u titl (some al) ch hch
        refine ⟨g1, ?_, hskel⟩
        show (match updateOrCreateNode g nt u titl (some al) ch with
          | RRes.ok (g2, _) => RRes.ok g2
          | RRes.panicked msg => RRes.panicked msg) = RRes.ok g1
        rw [hupd]

theorem processRowsOld_skel (c : String → String → Option Int)
    (s f : List (String × String)) (d : String) (columns : List String)
    (nt uidf : String) (tf : Option String) (ac : Option (List String))
    (ch : String) (hch : ch = "replace" ∨ ch = "update" ∨ ch = "skip") :
    ∀ (data : List PyRow) (g : OldGraph),
    ∃ gN, processRowsOld c s f d columns nt uidf tf ac ch g data = .ok gN ∧
      skel gN = data.foldl
        (fun ks r => rowStep ks nt (rowId columns uidf tf ac r)) (skel g) := by
  intro data
  induction data with
  | nil => intro g; exact ⟨g, rfl, rfl⟩
  | cons r rest ih =>
    intro g
    obtain ⟨g1, hr, hskel1⟩ :=
      processRowOld_skel c s f d columns nt uidf tf ac ch hch g r
    obtain ⟨gN, hrest, hskelN⟩ := ih g1
    refine ⟨gN, ?_, ?_⟩
    · simp only [processRowsOld, hr, hrest]
    · rw [hskelN, List.foldl_cons, hskel1]

theorem addNodesOld_skel (chrono : String → String → Option Int)
    (g : OldGraph) (data : List PyRow) (columns : List String)
    (node_type uidf : String) (tf : Option String) (ch : Option String)
    (ct : Option (List (String × String))) (ac : Option (List String))
    (hv1 : ((columns.map strLower).contains (strLower uidf)) = true)
    (hv2 : (tf.all (fun t => (columns.map strLower).contains (strLower t))) = true)
    (hv3 : ((ac.getD []).filter (fun c =>
      ((columns.map strLower).contains (strLower c)) = false)).isEmpty = true)
    (hch : ch.getD "update" = "replace" ∨ ch.getD "update" = "update" ∨
      ch.getD "update" = "skip") :
    (addNodesOld chrono g data columns node_type uidf tf ch ct ac).1 = .ok () ∧
    skel (addNodesOld chrono g data columns node_type uidf tf ch ct ac).2 =
      data.foldl (fun ks r => rowStep ks node_type (rowId columns uidf tf ac r))
        (pushDT (skel g) "Node" node_type) := by
  have hfmts :
      ∃ fm : List (String × String) × List (String × String), (if
        ((match ct with
          | some c2 => c2
          | none => inferTypes data columns) : List (String × String)).isEmpty = false
        then extractDatetimeFormats (match ct with
          | some c2 => c2
          | none => inferTypes data columns) "%Y-%m-%d %H:%M:%S"
        else ([], (match ct with
          | some c2 => c2
          | none => inferTypes data columns))) = fm := ⟨_, rfl⟩
  obtain ⟨fm, hfm⟩ := hfmts
  obtain ⟨res, g1, hsch, hskel1⟩ :=
    updateOrRetrieveSchema_skel g "Node" node_type fm.2
  obtain ⟨gN, hrows, hskelN⟩ := processRowsOld_skel chrono res fm.1
    "%Y-%m-%d %H:%M:%S" columns node_type uidf tf ac (ch.getD "update") hch
    data g1
  have hbody : addNodesOld chrono g data columns node_type uidf tf ch ct ac =
      (.ok (), gN) := by
    simp only [addNodesOld, hv1, hv2, hv3, hfm, hsch, hrows]
    simp
  rw [hbody]
  exact ⟨rfl, by rw [hskelN, hskel1]⟩

/-- C4: a row whose unique-id cell is null or unparseable is skipped
without an error - ingestion still returns `Ok` - and the node count after
the call is exactly the node count of the same call with that row removed
from the input. -/
theorem c4_skip_unparseable (chrono : String → String → Option Int)
    (g : OldGraph) (pre post : List PyRow) (r0 : PyRow) (columns : List String)
    (node_type uidf : String) (tf : Option String) (ch : Option String)
    (ct : Option (List (String × String))) (ac : Option (List String))
    (hv1 : ((columns.map strLower).contains (strLower uidf)) = true)
    (hv2 : (tf.all (fun t => (columns.map strLower).contains (strLower t))) = true)
    (hv3 : ((ac.getD []).filter (fun c =>
      ((columns.map strLower).contains (strLower c)) = false)).isEmpty = true)
    (hch : ch.getD "update" = "replace" ∨ ch.getD "update" = "update" ∨
      ch.getD "update" = "skip")
    (hskip : rowId columns uidf tf ac r0 = none) :
    (addNodesOld chrono g (pre ++ r0 :: post) columns node_type uidf tf ch ct ac).1 =
      .ok () ∧
    nodeCount (addNodesOld chrono g (pre ++ r0 :: post) columns node_type uidf
        tf ch ct ac).2 =
      nodeCount (addNodesOld chrono g (pre ++ post) columns node_type uidf
        tf ch ct ac).2 := by
  obtain ⟨hok1, hskel1⟩ := addNodesOld_skel chrono g (pre ++ r0 :: post) columns
    node_type uidf tf ch ct ac hv1 hv2 hv3 hch
  obtain ⟨hok2, hskel2⟩ := addNodesOld_skel chrono g (pre ++ post) columns
    node_type uidf tf ch ct ac hv1 hv2 hv3 hch
  refine ⟨hok1, ?_⟩
  have hcount : ∀ g2 : OldGraph, nodeCount g2 = (skel g2).length := by
    intro g2; simp [nodeCount, skel]
  rw [hcount, hcount, hskel1, hskel2, List.foldl_append, List.foldl_append,
    List.foldl_cons, hskip]
  rfl

/-- C4 witness: a concrete batch whose first row has a null id cell -
ingestion returns `Ok` and the node count matches the run without it. -/
theorem c4_skip_unparseable_witness :
    ((addNodesOld (fun _ _ => none) ⟨[], []⟩
        [some [.pyNone, .pyStr "x"], some [.pyInt 1, .pyStr "y"]]
        ["id", "name"] "T" "id" (some "name") none none none).1 = .ok ()) ∧
    (nodeCount (addNodesOld (fun _ _ => none) ⟨[], []⟩
        [some [.pyNone, .pyStr "x"], some [.pyInt 1, .pyStr "y"]]
        ["id", "name"] "T" "id" (some "name") none none none).2 =
      nodeCount (addNodesOld (fun _ _ => none) ⟨[], []⟩
        [some [.pyInt 1, .pyStr "y"]]
        ["id", "name"] "T" "id" (some "name") none none none).2) :=
  c4_skip_unparseable (fun _ _ => none) ⟨[], []⟩ []
    [some [.pyInt 1, .pyStr "y"]] (some [.pyNone, .pyStr "x"])
    ["id", "name"] "T" "id" (some "name") none none none
    (by decide) (by decide) (by decide) (by decide) (by decide)

end RG
